import Mathlib

/-!
# Verification of the face-attendance core (FunMeter backend)

A shallow embedding, in Lean 4, of the recognition-and-attendance pipeline of
the FunMeter backend, together with theorems settling the specification claims
about it.  Each definition mirrors one Python function of the repository
(named in its doc comment); machine floats are modelled as exact rationals,
fallible code returns `Except`, and the in-process caches appear as explicit
state values threaded through the functions.  External collaborators (the
database client, the face model, the `datetime` library) enter as function
parameters.
-/

/-! ## Basic helpers (helpers/time_utils.py and Python built-ins) -/

/-- Python `int(q)` on a real value: truncation toward zero. -/
def pyInt (q : ℚ) : ℤ :=
  if 0 ≤ q then ⌊q⌋ else -⌊-q⌋

/-- `helpers/time_utils.clamp_int(value, minimum, maximum, default)`.
`none` stands for a value `int()` cannot parse, which falls back to the
default before clamping. -/
def clampInt (value : Option ℤ) (minimum maximum default : ℤ) : ℤ :=
  max minimum (min maximum (value.getD default))

/-- `helpers/time_utils.humanize_secs(sec)`: render a second count as
Indonesian "N jam M menit K detik", omitting zero components except that a
bare zero renders as "0 detik". -/
def humanizeSecs (sec : ℤ) : String :=
  let s := (max 0 sec).toNat
  let h := s / 3600
  let r := s % 3600
  let m := r / 60
  let d := r % 60
  let parts := (if h ≠ 0 then [s!"{h} jam"] else []) ++ (if m ≠ 0 then [s!"{m} menit"] else [])
  let parts := if d ≠ 0 ∨ parts = [] then parts ++ [s!"{d} detik"] else parts
  String.intercalate " " parts

/-- Python `str.strip()`: drop ASCII whitespace from both ends.
(Implemented over the character list so the kernel can evaluate it.) -/
def pyStrip (s : String) : String :=
  ⟨((s.data.dropWhile Char.isWhitespace).reverse.dropWhile Char.isWhitespace).reverse⟩

/-- Python `round(x, 3)` on a score.  (Ties round up here where CPython
rounds half to even; no claim depends on the tie case.) -/
def roundQ3 (q : ℚ) : ℚ :=
  (⌊q * 1000 + 1/2⌋ : ℤ) / 1000

/-- Point update of a string-keyed map (a Python `dict` assignment). -/
def updQ (m : String → Option ℚ) (k : String) (v : ℚ) : String → Option ℚ :=
  fun x => if x = k then some v else m x

/-- Point update of a string-keyed integer map. -/
def updZ (m : String → Option ℤ) (k : String) (v : ℤ) : String → Option ℤ :=
  fun x => if x = k then some v else m x

/-! ## Attendance store (services/attendance_service.py) -/

/-- One attendance event, as held in the cached snapshot
(`{"id", "label", "score", "ts"}` plus `"person_id"` when present). -/
structure AttEvent where
  id : ℤ
  label : String
  score : ℚ
  ts : String
  personId : Option String
deriving Repr, DecidableEq

/-- Maximum number of cached events (`ATT_MAX_EVENTS`, default 5000). -/
def MAX_ATT_EVENTS : ℕ := 5000

/-- The attendance snapshot `{att_events, att_last, att_last_id, att_count,
att_count_id, att_event_seq}`.  The four derived maps are partial: a missing
key is `none` (Python: key absent from the dict). -/
structure AttDb where
  events : List AttEvent
  last : String → Option ℚ
  lastId : String → Option ℚ
  count : String → Option ℤ
  countId : String → Option ℤ
  seq : ℤ

/-- `load_attendance_db(force=False)`: return a (deep copy of the) cached
snapshot when one exists; otherwise build one from the repository rows
(`fetched`, an external input here) and publish it to the cache.  Returns
the loaded snapshot and the cache state afterwards. -/
def loadAttendanceDb (cache : Option AttDb) (fetched : AttDb) : AttDb × Option AttDb :=
  match cache with
  | some db => (db, some db)
  | none => (fetched, some fetched)

/-- Result of `mark_attendance`: the returned boolean, the shared cache
afterwards, and whether a write-through persist was scheduled
(`_schedule_attendance_persist`). -/
structure MarkResult where
  admitted : Bool
  cache : Option AttDb
  persist : Bool

/-- `services/attendance_service.mark_attendance(label, score)`.
`resolve` stands for `_label_to_person_id` (people cache plus DB lookup),
`now` for `time.time()`, `nowIso` for `_now_iso()`, `cooldownSec` for
`_COOLDOWN_SEC`.  The function works on the deep copy returned by
`load_attendance_db` and publishes it back (`_set_attendance_cache` +
persist) only on the admit path. -/
def markAttendance (cache : Option AttDb) (fetched : AttDb)
    (resolve : String → Option String) (label : String) (score : ℚ)
    (now : ℚ) (nowIso : String) (cooldownSec : ℤ) : MarkResult :=
  let ld := loadAttendanceDb cache fetched
  let db := ld.1
  let cache1 := ld.2
  let pid := resolve label
  let lastTs : ℚ := match pid with
    | some p => (db.lastId p).getD 0
    | none => (db.last label).getD 0
  -- `if last_ts:` then reject when the (skew-adjusted) elapsed time is
  -- below the cooldown.
  if lastTs ≠ 0 ∧
      (let elapsed := now - lastTs
       (if elapsed < 0 then (cooldownSec : ℚ) else elapsed) < (cooldownSec : ℚ)) then
    ⟨false, cache1, false⟩
  else
    let seq1 := db.seq + 1
    let ev : AttEvent := ⟨seq1, label, roundQ3 score, nowIso, pid⟩
    let evs := ev :: db.events
    let evs := if evs.length > MAX_ATT_EVENTS then evs.take MAX_ATT_EVENTS else evs
    let db1 : AttDb :=
      { events := evs
        last := updQ db.last label now
        lastId := match pid with
          | some p => updQ db.lastId p now
          | none => db.lastId
        count := updZ db.count label ((db.count label).getD 0 + 1)
        countId := match pid with
          | some p => updZ db.countId p ((db.countId p).getD 0 + 1)
          | none => db.countId
        seq := seq1 }
    ⟨true, some db1, true⟩

/-- The info dict built by `services/attendance_service._check_mark_block`.
Optional fields are present only on the paths that set them. -/
structure InfoSvc where
  label : String
  personId : Option String
  lastTs : Option ℚ
  lastIso : Option String
  untilTs : Option ℚ
  untilIso : Option String
  cooldownSec : Option ℤ
  remainingSec : Option ℤ
  message : Option String
deriving Repr, DecidableEq

/-- `services/attendance_service._check_mark_block(label)`: the admission
gate of the attendance service module.  `fmt` stands for
`datetime.fromtimestamp(·, WIB).strftime("%Y-%m-%d %H:%M:%S")`. -/
def checkMarkBlockService (cache : Option AttDb) (fetched : AttDb)
    (resolve : String → Option String) (label : String) (now : ℚ)
    (cooldownSec : ℤ) (fmt : ℚ → String) : Bool × String × InfoSvc :=
  let ld := loadAttendanceDb cache fetched
  let db := ld.1
  let pid := resolve label
  let lastTs : ℚ := match pid with
    | some p => (db.lastId p).getD 0
    | none => (db.last label).getD 0
  let base : InfoSvc :=
    { label := label
      personId := pid
      lastTs := if lastTs = 0 then none else some lastTs
      lastIso := if lastTs = 0 then none else some (fmt lastTs)
      untilTs := none, untilIso := none, cooldownSec := none
      remainingSec := none, message := none }
  if lastTs = 0 then (true, "ok", base)
  else
    let elapsed := now - lastTs
    let elapsed := if elapsed < 0 then (cooldownSec : ℚ) else elapsed
    let remaining := pyInt ((cooldownSec : ℚ) - elapsed)
    if remaining > 0 then
      let untilT := lastTs + cooldownSec
      (false, "cooldown",
        { base with
          untilTs := some untilT
          untilIso := some (fmt untilT)
          cooldownSec := some cooldownSec
          remainingSec := some remaining
          message := some s!"Cooldown {remaining}s ({humanizeSecs remaining})" })
    else (true, "ok", base)

/-! ## Stream recognizer (main_fastapi.py) -/

/-- `main_fastapi._labels_set(rec, th)`: labels recognized strictly above
`"Unknown"` with score at least the threshold. -/
def labelsSet (rec : List (String × ℚ)) (th : ℚ) : Finset String :=
  rec.foldl (fun s r => if r.1 ≠ "Unknown" ∧ r.2 ≥ th then insert r.1 s else s) ∅

/-- `main_fastapi._jaccard(a, b)`. -/
def jaccardQ (a b : Finset String) : ℚ :=
  if a = ∅ ∧ b = ∅ then 1
  else
    let u := (a ∪ b).card
    if u = 0 then 0 else (a ∩ b).card / u

/-- The info dict built by `main_fastapi._check_mark_block` (the gate the
frame handler actually calls).  Unlike the attendance-service twin it never
carries a message. -/
structure InfoMain where
  label : String
  personId : Option String
  nowIso : String
  cooldownSec : ℤ
  lastTs : Option ℚ
  lastIso : Option String
  untilTs : Option ℚ
  untilIso : Option String
  remainingSec : Option ℤ
deriving Repr, DecidableEq

/-- `main_fastapi._check_mark_block(label)`.  The snapshot `db` is the one
returned by `load_attendance_db` (factored out here; its cache effect is
handled by the caller).  `fmtIso` stands for `to_wib_iso`.  Rounding of the
remaining seconds uses round-half-up where CPython rounds half to even; no
claim depends on the tie. -/
def checkMarkBlockMain (db : AttDb) (resolve : String → Option String) (label : String)
    (now : ℚ) (cooldownSec : ℤ) (fmtIso : ℚ → String) : Bool × String × InfoMain :=
  let pid := resolve label
  let lastTs : ℚ := match pid with
    | some p => (db.lastId p).getD 0
    | none => (db.last label).getD 0
  let base : InfoMain :=
    { label := label, personId := pid, nowIso := fmtIso now, cooldownSec := cooldownSec
      lastTs := none, lastIso := none, untilTs := none, untilIso := none, remainingSec := none }
  if lastTs = 0 then (true, "ok", base)
  else
    let base := { base with lastTs := some lastTs, lastIso := some (fmtIso lastTs) }
    let diff := now - lastTs
    let diff := if diff < 0 then (cooldownSec : ℚ) else diff
    let remaining := (cooldownSec : ℚ) - diff
    if remaining > 0 then
      let untilT := lastTs + cooldownSec
      (false, "cooldown",
        { base with
          untilTs := some untilT
          untilIso := some (fmtIso untilT)
          remainingSec := some (max 0 (round remaining)) })
    else (true, "ok", base)

/-- The blocked record built by `main_fastapi._create_blocked_info`
(its dict flattened; the trailing `**info` spread contributes the fields
from `personId` on, which override the earlier keys of the literal). -/
structure BlockedRec where
  label : String
  reason : String
  untilKey : Option String
  untilFormatted : Option String
  code : String
  message : Option String
  personId : Option String
  nowIso : Option String
  cooldownSec : Option ℤ
  lastTs : Option ℚ
  lastIso : Option String
  untilTs : Option ℚ
  untilIso : Option String
  remainingSec : Option ℤ
deriving Repr, DecidableEq

/-- `main_fastapi._create_blocked_info(label, code, info, allow_msgs)`.
The local `until_txt` is assigned only under `allow_msgs and code ==
"cooldown"` but read whenever `code == "cooldown"`, so a cooldown denial
with messages suppressed raises `UnboundLocalError` — modelled as
`Except.error`.  `parse` stands for `parse_att_ts`, `fmtFull` for
`fmt_wib_full`. -/
def createBlockedInfo (label code : String) (info : Option InfoMain) (allowMsgs : Bool)
    (parse : String → Option ℚ) (fmtFull : ℚ → String) : Except String BlockedRec :=
  let legacy := "Tidak bisa absen sekarang"
  let msg : Option String :=
    if allowMsgs then (if code = "cooldown" then none else some legacy) else none
  if code = "cooldown" ∧ ¬ allowMsgs then
    .error "cannot access local variable until_txt where it is not associated with a value"
  else
    let untilTxt : Option String :=
      if allowMsgs ∧ code = "cooldown" then
        match info.bind (·.untilIso) with
        | some u =>
          match parse u with
          | some dt => some (fmtFull dt)
          | none => some u
        | none => none
      else none
    .ok
      { label := (info.map (·.label)).getD label
        reason := legacy
        untilKey := info.bind (·.untilIso)
        untilFormatted := if code = "cooldown" then untilTxt else none
        code := code
        message := msg
        personId := info.bind (·.personId)
        nowIso := info.map (·.nowIso)
        cooldownSec := info.map (·.cooldownSec)
        lastTs := info.bind (·.lastTs)
        lastIso := info.bind (·.lastIso)
        untilTs := info.bind (·.untilTs)
        untilIso := info.bind (·.untilIso)
        remainingSec := info.bind (·.remainingSec) }

/-- The closure `_cooldown_ready(lab)` inside `att_frame`: ready when no
last mark, when the stored mark is in the future (clock skew), or when the
elapsed time reaches the cooldown less a 1 ms slack. -/
def cooldownReady (attLast : String → Option ℚ) (nowTs : ℚ) (cooldownSec : ℤ)
    (lab : String) : Bool :=
  let lastTs := (attLast lab).getD 0
  if lastTs ≤ 0 then true
  else if lastTs > nowTs then true
  else decide (nowTs - lastTs ≥ max 0 ((cooldownSec : ℚ) - 1/1000))

/-- Per-session recognizer state (`_att_cfg`, `_att_last_proc`,
`_att_prev_set`, `_att_hold_frames`, `_msg_delay_until`).  `msgDelayUntil`
is set to `connect time + LOGIN_MSG_DELAY_SEC` (default 2 s) when the
session connects. -/
structure SessState where
  th : ℚ
  mark : Bool
  hold : ℕ
  prev : Finset String
  lastProc : ℚ
  msgDelayUntil : ℚ
deriving DecidableEq

/-- External collaborators and configuration of one `att_frame` call. -/
structure FrameCtx where
  resolve : String → Option String
  parse : String → Option ℚ
  fmtIso : ℚ → String
  fmtFull : ℚ → String
  nowIso : String
  cooldownSec : ℤ
  minInterval : ℚ

/-- The first per-label loop of `att_frame`: deduplicate recognized labels,
drop `"Unknown"` and below-threshold rows, consult the gate, and split into
blocked records and candidates.  An `UnboundLocalError` from
`_create_blocked_info` aborts the whole loop (`Except.error`). -/
def gatherBlocked (ctx : FrameCtx) (db0 : AttDb) (th : ℚ) (now : ℚ) (allowMsgs : Bool) :
    List (String × ℚ) → Finset String → Except String (List BlockedRec × List (String × ℚ))
  | [], _ => .ok ([], [])
  | r :: rest, seen =>
    if r.1 = "Unknown" ∨ r.2 < th then gatherBlocked ctx db0 th now allowMsgs rest seen
    else if r.1 ∈ seen then gatherBlocked ctx db0 th now allowMsgs rest seen
    else
      let seen1 := insert r.1 seen
      let chk := checkMarkBlockMain db0 ctx.resolve r.1 now ctx.cooldownSec ctx.fmtIso
      if chk.1 then
        match gatherBlocked ctx db0 th now allowMsgs rest seen1 with
        | .error e => .error e
        | .ok (bs, cs) => .ok (bs, r :: cs)
      else
        match createBlockedInfo r.1 chk.2.1 (some chk.2.2) allowMsgs ctx.parse ctx.fmtFull with
        | .error e => .error e
        | .ok b =>
          match gatherBlocked ctx db0 th now allowMsgs rest seen1 with
          | .error e => .error e
          | .ok (bs, cs) => .ok (b :: bs, cs)

/-- The marking loop of `att_frame`: for each candidate, allow a mark when
the frame-level stabilizer decision allows it, when the label is new
relative to the previous frame, or when `_cooldown_ready` holds; each
allowed candidate is submitted to `_mark_attendance`.  Returns the list of
submitted labels (the recorder calls made), the `marked` list, and the
shared cache afterwards. -/
def markPhase (ctx : FrameCtx) (attLast0 : String → Option ℚ) (fetched : AttDb)
    (doMark : Bool) (newLabels : Finset String) (now : ℚ) :
    List (String × ℚ) → Option AttDb → List String × List String × Option AttDb
  | [], cache => ([], [], cache)
  | c :: rest, cache =>
    let allowThis := doMark ∨ c.1 ∈ newLabels ∨ cooldownReady attLast0 now ctx.cooldownSec c.1
    if allowThis then
      let r := markAttendance cache fetched ctx.resolve c.1 c.2 now ctx.nowIso ctx.cooldownSec
      let restR := markPhase ctx attLast0 fetched doMark newLabels now rest r.cache
      (c.1 :: restR.1, (if r.admitted then c.1 :: restR.2.1 else restR.2.1), restR.2.2)
    else markPhase ctx attLast0 fetched doMark newLabels now rest cache

/-- What one `att_frame` call emits to its session. -/
inductive FrameOut
  | dropped
  | attError (msg : String)
  | attResult (marked : List String) (blocked : List BlockedRec)
deriving Repr, DecidableEq

/-- Result of one `att_frame` call: the emission, the session state
afterwards, the shared attendance cache afterwards, and the trace of labels
submitted to `_mark_attendance`. -/
structure FrameResult where
  out : FrameOut
  state : SessState
  cache : Option AttDb
  submitted : List String

/-- `main_fastapi.att_frame(sid, data)` after decoding: rate limiting,
stabilizer, gate loop, marking loop, hold-frame update.  `decoded` is
whether `_decode_ws_payload` succeeded; `rec` is the recognizer output as
(label, score) rows; `processing` is `sid in _att_processing`.  The
snapshot load performed lazily inside each gate call and in the marking
section is factored to one load up front — every such load returns the
same snapshot and leaves the cache holding it. -/
def attFrame (ctx : FrameCtx) (st : SessState) (processing : Bool) (decoded : Bool)
    (rec : List (String × ℚ)) (cache : Option AttDb) (fetched : AttDb) (now : ℚ) :
    FrameResult :=
  if now - st.lastProc < ctx.minInterval ∨ processing then
    ⟨.dropped, st, cache, []⟩
  else
    let st1 := { st with lastProc := now }
    if ¬ decoded then ⟨.attError "cannot decode frame", st1, cache, []⟩
    else
      let curSet := labelsSet rec st.th
      let prevSet := st.prev
      let holdPair : ℕ × Bool :=
        if st.hold > 0 then (st.hold - 1, false)
        else (st.hold, decide (jaccardQ curSet prevSet < 7/10) && st.mark)
      let newLabels := curSet \ prevSet
      let st2 := { st1 with prev := curSet, hold := holdPair.1 }
      let allowMsgs := decide (now ≥ st.msgDelayUntil)
      let ld := loadAttendanceDb cache fetched
      let db0 := ld.1
      let cache1 := ld.2
      match gatherBlocked ctx db0 st.th now allowMsgs rec ∅ with
      | .error e => ⟨.attError e, st2, cache1, []⟩
      | .ok (blocked, candidates) =>
        let mp :=
          if st.mark then
            markPhase ctx db0.last fetched holdPair.2 newLabels now candidates cache1
          else ([], [], cache1)
        let marked := mp.2.1
        let holdAfter :=
          if marked ≠ [] ∨ blocked.any (fun b => b.message.isSome) then 1 else st2.hold
        ⟨.attResult marked blocked, { st2 with hold := holdAfter }, mp.2.2, mp.1⟩

/-! ## Schedule resolver (services/attendance_service.py) -/

/-- A normalized override target (`_normalize_override_targets` output):
`{type, value}` plus an optional display label (empty = missing). -/
structure Target where
  ttype : String
  value : String
  label : String
deriving Repr, DecidableEq

/-- A normalized schedule override (`_normalize_override_entry` output).
Date strings are already `"%Y-%m-%d"`-formatted; they are modelled as
parsed day ordinals, `none` standing for the empty string. -/
structure Override where
  startDate : Option ℤ
  endDate : Option ℤ
  enabled : Bool
  checkIn : String
  checkOut : String
  graceIn : Option ℤ
  graceOut : Option ℤ
  label : String
  notes : String
  targets : List Target
deriving Repr, DecidableEq

/-- Group display data from `_get_group_context` (`group_meta` values). -/
structure GroupMeta where
  name : String
  label : String
deriving Repr, DecidableEq

/-- The people/group lookups the override matcher consults:
`_label_to_person_id`, `_person_id_to_label`, and the two maps of
`_get_group_context` (members keyed by group id; display metadata). -/
structure PeopleCtx where
  labelToPid : String → Option String
  pidToLabel : String → Option String
  groupMembers : List (String × List String)
  groupMeta : List (String × GroupMeta)

/-- Membership test of `pid` in the group `gid` as the matcher performs it:
`members and pid and pid in members`. -/
def groupHas (pctx : PeopleCtx) (gid : String) (pid : String) : Bool :=
  match pctx.groupMembers.lookup gid with
  | some ms => ¬ ms.isEmpty ∧ pid ≠ "" ∧ pid ∈ ms
  | none => false

/-- One target of the loop body of `_override_matches_label`. -/
def targetMatches (pctx : PeopleCtx) (pid : String) (label : String) (t : Target) : Bool :=
  let value := pyStrip t.value
  if value = "" then false
  else
    let ttype := t.ttype.toLower
    let tlabel := pyStrip t.label
    if ttype = "person" ∨ ttype = "person_id" then
      if pid ≠ "" then
        -- When a person_id is known, do not fall back to label matching.
        value = pid
      else if value.toLower = label.toLower then true
      else
        let tlabel1 := if tlabel = "" then ((pctx.pidToLabel value).getD "") else tlabel
        tlabel1 ≠ "" ∧ tlabel1.toLower = label.toLower
    else if ttype = "label" then
      value.toLower = label.toLower ∨ (tlabel ≠ "" ∧ tlabel.toLower = label.toLower)
    else if ttype = "group" ∨ ttype = "group_id" then
      let metaHit := fun (s : String) (g : String × GroupMeta) =>
        s.toLower = (pyStrip g.2.label).toLower ∨ s.toLower = (pyStrip g.2.name).toLower
      let cands :=
        (if (pctx.groupMembers.lookup value).isSome then [value] else []) ++
          (pctx.groupMeta.filter (metaHit value)).map (·.1)
      if cands.any (fun gid => groupHas pctx gid pid) then true
      else
        tlabel ≠ "" ∧
          pctx.groupMeta.any (fun g => metaHit tlabel g ∧ groupHas pctx g.1 pid)
    else false

/-- `services/attendance_service._override_matches_label(ov, label,
person_id=...)`: empty targets match everything, otherwise some target must
match. -/
def overrideMatchesLabel (pctx : PeopleCtx) (ov : Override) (label : String)
    (personId : Option String) : Bool :=
  if ov.targets.isEmpty then true
  else
    let pid0 := pyStrip (personId.getD "")
    let pid := if pid0 = "" then (pctx.labelToPid label).getD "" else pid0
    ov.targets.any (targetMatches pctx pid label)

/-- Date-range activity test of `_find_schedule_for_day`: skip the override
when the date is before its start or after its end (an empty end falls back
to the start). -/
def overrideActiveOn (d : ℤ) (ov : Override) : Bool :=
  let e := match ov.endDate with
    | none => ov.startDate
    | some x => some x
  (match ov.startDate with
   | none => true
   | some s => decide (¬ d < s)) &&
  (match e with
   | none => true
   | some t => decide (¬ d > t))

/-- One weekly schedule rule of `ATT_CONFIG["weekly"]` / `["rules"]`.
Missing string fields are the empty string. -/
structure DayRule where
  day : String
  enabled : Bool
  checkIn : String
  checkOut : String
  graceIn : Option ℤ
  graceOut : Option ℤ
  label : String
  name : String
  notes : String
deriving Repr, DecidableEq

/-- The parts of `ATT_CONFIG` that `_find_schedule_for_day` reads. -/
structure AttConfig where
  weekly : List DayRule
  enabled : Bool
  checkIn : String
  checkOut : String
  label : String
  notes : String
deriving Repr, DecidableEq

/-- The localized day names (`ID_DAYS`), indexed by `datetime.weekday()`. -/
def ID_DAYS : List String :=
  ["Senin", "Selasa", "Rabu", "Kamis", "Jumat", "Sabtu", "Minggu"]

/-- The effective schedule `_find_schedule_for_day` returns. -/
structure EffSchedule where
  label : String
  enabled : Bool
  checkIn : String
  checkOut : String
  graceIn : ℤ
  graceOut : ℤ
  notes : String
  source : String
  chosenOverride : Option Override
  day : Option String
deriving Repr, DecidableEq

/-- Build the returned schedule from the selected override. -/
def overrideSchedule (graceInD graceOutD : ℤ) (best : Override) : EffSchedule :=
  let enabled := best.enabled
  { label := if best.label = "" then "Jadwal Khusus" else best.label
    enabled := enabled
    checkIn := best.checkIn
    checkOut := best.checkOut
    graceIn := clampInt best.graceIn 0 240 (if enabled then graceInD else 0)
    graceOut := clampInt best.graceOut 0 240 (if enabled then graceOutD else 0)
    notes := best.notes
    source := "override"
    chosenOverride := some best
    day := none }

/-- Build the returned schedule from a weekly rule. -/
def weeklySchedule (graceInD graceOutD : ℤ) (dc : DayRule) : EffSchedule :=
  let enabled := dc.enabled
  let rawLabel := pyStrip (if dc.label ≠ "" then dc.label else
    if dc.name ≠ "" then dc.name else "Jam Kerja Normal")
  { label := if rawLabel = "" then "Jam Kerja Normal" else rawLabel
    enabled := enabled
    checkIn := dc.checkIn
    checkOut := dc.checkOut
    graceIn := clampInt dc.graceIn 0 240 (if enabled then graceInD else 0)
    graceOut := clampInt dc.graceOut 0 240 (if enabled then graceOutD else 0)
    notes := dc.notes
    source := "weekly"
    chosenOverride := none
    day := some (if dc.name ≠ "" then dc.name else dc.day) }

/-- `services/attendance_service._find_schedule_for_day(dt, label=...,
person_id=..., overrides=...)`: filter the overrides to the active and
matching ones and take the LAST of them; otherwise look up the weekly rule
for the weekday; otherwise fall back to the config defaults.
`graceInD`/`graceOutD` stand for the module globals `_ATT_GRACE_IN` /
`_ATT_GRACE_OUT`. -/
def findScheduleForDay (pctx : PeopleCtx) (cfg : AttConfig) (graceInD graceOutD : ℤ)
    (d : ℤ) (weekday : Fin 7) (label : String) (personId : Option String)
    (overrides : List Override) : EffSchedule :=
  let actives := overrides.filter
    (fun ov => overrideActiveOn d ov && overrideMatchesLabel pctx ov label personId)
  match actives.getLast? with
  | some best => overrideSchedule graceInD graceOutD best
  | none =>
    let schedule := cfg.weekly
    let dayName := ID_DAYS.getD weekday.1 ""
    let fromIdx : Option DayRule :=
      match schedule.get? weekday.1 with
      | some cand =>
        let dayField := (pyStrip cand.day).toLower
        if dayField ≠ "" ∧ dayField = dayName.toLower then some cand else none
      | none => none
    let dayEntry : Option DayRule :=
      match fromIdx with
      | some dc => some dc
      | none => schedule.find? (fun cand => (pyStrip cand.day).toLower = dayName.toLower)
    match dayEntry with
    | some dc => weeklySchedule graceInD graceOutD dc
    | none =>
      let enabled := cfg.enabled
      { label := if cfg.label = "" then "Jam Kerja Normal" else cfg.label
        enabled := enabled
        checkIn := cfg.checkIn
        checkOut := cfg.checkOut
        graceIn := if enabled then graceInD else 0
        graceOut := if enabled then graceOutD else 0
        notes := cfg.notes
        source := "default"
        chosenOverride := none
        day := none }

/-! ## Repository retry policy (db/supabase_client.py) -/

/-- Outcome of one `self._qb.execute()` call: success, or an exception
carrying an optional HTTP status (`_get_status_from_error`) and an optional
Retry-After hint in seconds (`_get_retry_after_seconds`). -/
inductive DbOutcome
  | success
  | failure (status : Option ℤ) (retryAfter : Option ℚ)
deriving Repr, DecidableEq

/-- `db/supabase_client._should_retry(status)`. -/
def shouldRetry : Option ℤ → Bool
  | none => true
  | some s => s = 429 ∨ (500 ≤ s ∧ s ≤ 599)

/-- The exponential-backoff base of `_sleep_backoff`:
`min(5.0, 0.4 * 2 ** attempt)`. -/
def backoffBase (attempt : ℕ) : ℚ :=
  min 5 (2/5 * 2 ^ attempt)

/-- `db/supabase_client._sleep_backoff(attempt, retry_after)`: the slept
duration; `jitter` stands for the sampled `random.random() * 0.2`. -/
def sleepBackoff (attempt : ℕ) (retryAfter : Option ℚ) (jitter : ℚ) : ℚ :=
  match retryAfter with
  | some ra => max 0 ra
  | none => backoffBase attempt + jitter

/-- Observable behaviour of `_QueryProxy._execute_with_retry`: whether it
returned, the status of the raised exception otherwise, how many times it
executed the query, and the durations slept (in order). -/
structure RunResult where
  ok : Bool
  raised : Option (Option ℤ)
  execs : ℕ
  sleeps : List ℚ
deriving Repr, DecidableEq

/-- The retry loop of `_QueryProxy._execute_with_retry`, starting at loop
index `i` with `r` loop iterations left.  `outcome n` is what the `n`-th
execution does; `jitter n` the jitter sampled for the sleep after it.  A
non-retryable failure re-raises at once; a retryable one sleeps (even on
the final iteration, after which the last error is re-raised). -/
def execRetry (outcome : ℕ → DbOutcome) (jitter : ℕ → ℚ) : ℕ → ℕ → RunResult
  | _, 0 => ⟨false, none, 0, []⟩
  | i, r + 1 =>
    match outcome i with
    | .success => ⟨true, none, 1, []⟩
    | .failure st ra =>
      if shouldRetry st then
        let s := sleepBackoff i ra (jitter i)
        match r with
        | 0 => ⟨false, some st, 1, [s]⟩
        | r1 + 1 =>
          let rest := execRetry outcome jitter (i + 1) (r1 + 1)
          ⟨rest.ok, rest.raised, rest.execs + 1, s :: rest.sleeps⟩
      else ⟨false, some st, 1, []⟩

/-- `_QueryProxy._execute_with_retry(...)` with `attempts` total attempts
(default 3). -/
def executeWithRetry (outcome : ℕ → DbOutcome) (jitter : ℕ → ℚ) (attempts : ℕ) : RunResult :=
  execRetry outcome jitter 0 attempts

/-! ## Identity index (utils/face_engine.py) -/

/-- `numpy` dot product of two equally-long vectors. -/
def dotQ (a b : List ℚ) : ℚ :=
  (a.zip b).foldl (fun acc p => acc + p.1 * p.2) 0

/-- Tail of `np.argmax`: scan with the best value so far, replacing it only
on a strictly larger one, so the FIRST occurrence of the maximum wins. -/
def argmaxFrom (bi : ℕ) (bv : ℚ) (i : ℕ) : List ℚ → ℕ
  | [] => bi
  | y :: ys => if bv < y then argmaxFrom i y (i + 1) ys else argmaxFrom bi bv (i + 1) ys

/-- `np.argmax` over a similarity vector (`int(np.argmax(sims))`). -/
def npArgmax : List ℚ → ℕ
  | [] => 0
  | x :: xs => argmaxFrom 0 x 1 xs

/-- `FaceEngine.match(feat, method="cosine")`.  The index `db` is a Python
dict, i.e. a list of (label, vector) entries in insertion order; `labels =
list(self.db.keys())` iterates in that order and `feats @ feat` is the
row-wise dot product. -/
def engineMatch (db : List (String × List ℚ)) (probe : List ℚ) : String × ℚ :=
  match db with
  | [] => ("Unknown", 0)
  | _ =>
    let sims := db.map (fun e => dotQ e.2 probe)
    let i := npArgmax sims
    (((db.get? i).map (·.1)).getD "Unknown", (sims.get? i).getD 0)

/-- Vectors of the identity index, with the Euclidean (L2) norm. -/
abbrev EmbVec (d : ℕ) := EuclideanSpace ℝ (Fin d)

/-- The in-memory index `FaceEngine.db`. -/
def EngineDb (d : ℕ) := String → Option (EmbVec d)

/-- The normalization step of `FaceEngine.align_and_embed`: divide by the
norm when it is positive, keep the raw vector otherwise. -/
noncomputable def alignAndEmbedNorm {d : ℕ} (feat : EmbVec d) : EmbVec d :=
  if 0 < ‖feat‖ then ‖feat‖⁻¹ • feat else feat

/-- `FaceEngine.register_embedding(label, emb)`: reject a zero vector,
otherwise normalize and install.  Returns the index afterwards and the
(ok, message) pair. -/
noncomputable def registerEmbedding {d : ℕ} (db : EngineDb d) (label : String)
    (emb : EmbVec d) : EngineDb d × Bool × String :=
  if ‖emb‖ = 0 then (db, false, "Empty embedding")
  else ((fun l => if l = label then some (‖emb‖⁻¹ • emb) else db l), true, "OK")

/-- `FaceEngine.register_from_image(label, bgr)`: `detected` is the model
feature of the top-score detected box (`none`: no face detected); the
aligned embedding is installed without any zero check. -/
noncomputable def registerFromImage {d : ℕ} (db : EngineDb d) (label : String)
    (detected : Option (EmbVec d)) : EngineDb d × Bool × String :=
  match detected with
  | none => (db, false, "No face detected")
  | some f =>
    ((fun l => if l = label then some (alignAndEmbedNorm f) else db l), true, "OK")

/-- One row of the register list consumed by
`services/engine_ops.refresh_from_register`; `embedding` is `none` when the
stored value is missing or not a non-empty list. -/
structure RegEntry (d : ℕ) where
  label : String
  embedding : Option (EmbVec d)

/-- One entry of the install loop of
`services/engine_ops.refresh_from_register`: skip an empty label or a
missing embedding; normalize only when the norm is positive (a zero
embedding is installed unchanged). -/
noncomputable def refreshStep {d : ℕ} (db : EngineDb d) (e : RegEntry d) : EngineDb d :=
  let lab := pyStrip e.label
  if lab = "" then db
  else
    match e.embedding with
    | some emb =>
      let arr := if 0 < ‖emb‖ then ‖emb‖⁻¹ • emb else emb
      fun l => if l = lab then some arr else db l
    | none => db

/-- `services/engine_ops.refresh_from_register(reason)`: clear the index,
then install the entries in order. -/
noncomputable def refreshFromRegister {d : ℕ} (entries : List (RegEntry d)) : EngineDb d :=
  entries.foldl refreshStep (fun _ => none)

/-- An install operation on the identity index (the three paths the claim
names). -/
inductive InstallOp (d : ℕ)
  | regEmb (label : String) (emb : EmbVec d)
  | regImg (label : String) (detected : Option (EmbVec d))
  | refresh (entries : List (RegEntry d))

/-- Apply one install operation to the index. -/
noncomputable def applyOp {d : ℕ} (db : EngineDb d) : InstallOp d → EngineDb d
  | .regEmb l e => (registerEmbedding db l e).1
  | .regImg l f => (registerFromImage db l f).1
  | .refresh es => refreshFromRegister es

/-- Apply a sequence of install operations. -/
noncomputable def applyOps {d : ℕ} (db : EngineDb d) (ops : List (InstallOp d)) : EngineDb d :=
  ops.foldl applyOp db

/-- All vectors an operation may feed into the index are non-zero
(`register_embedding` screens its own input, so it needs no side
condition). -/
def opSourcesNonzero {d : ℕ} : InstallOp d → Prop
  | .regEmb _ _ => True
  | .regImg _ f => ∀ v, f = some v → v ≠ 0
  | .refresh es => ∀ e ∈ es, ∀ v, e.embedding = some v → v ≠ 0

/-! ## Admin event edit / delete (main_fastapi.py) -/

/-- The four derived maps as rebuilt by the admin handlers. -/
structure DerivedMaps where
  last : String → Option ℚ
  count : String → Option ℤ
  lastId : String → Option ℚ
  countId : String → Option ℤ

/-- The effective person id of one event during the rebuild:
`str(ev.get("person_id") or _label_to_person_id(lab) or "")`
(the delete handler's variant has the same falsy-fallback semantics). -/
def effPid (resolve : String → Option String) (ev : AttEvent) : String :=
  match ev.personId with
  | some p => if p = "" then (resolve ev.label).getD "" else p
  | none => (resolve ev.label).getD ""

/-- One iteration of the recompute loop shared by
`admin_attendance_event_update` and `admin_attendance_event_delete`: skip
events with an empty label or an unparsable timestamp, otherwise fold the
maximum timestamp and the count per label (and per person id when one is
known). -/
def rebuildStep (resolve : String → Option String) (parse : String → Option ℚ)
    (m : DerivedMaps) (ev : AttEvent) : DerivedMaps :=
  let lab := ev.label
  let pid := effPid resolve ev
  match parse ev.ts with
  | none => m
  | some t =>
    if lab = "" then m
    else
      { last := updQ m.last lab (max ((m.last lab).getD 0) t)
        count := updZ m.count lab ((m.count lab).getD 0 + 1)
        lastId := if pid ≠ "" then updQ m.lastId pid (max ((m.lastId pid).getD 0) t) else m.lastId
        countId := if pid ≠ "" then updZ m.countId pid ((m.countId pid).getD 0 + 1) else m.countId }

/-- Recompute the four derived maps from scratch over an event list. -/
def rebuildMaps (resolve : String → Option String) (parse : String → Option ℚ)
    (events : List AttEvent) : DerivedMaps :=
  events.foldl (rebuildStep resolve parse)
    ⟨fun _ => none, fun _ => none, fun _ => none, fun _ => none⟩

/-- The patch body of `admin_attendance_event_update`
(`AttendanceEventUpdate`: each field optional). -/
structure EventPatch where
  label : Option String
  score : Option ℚ
  ts : Option String

/-- Apply the patch to the found event: a label patch re-resolves the
person id (falling back to the stored one), a timestamp patch must parse
or the handler answers 400. -/
def applyPatch (resolve : String → Option String) (parse : String → Option ℚ)
    (patch : EventPatch) (ev : AttEvent) : Except String AttEvent :=
  let ev1 := match patch.label with
    | some l =>
      let newLab := pyStrip l
      { ev with
        label := newLab
        personId := match resolve newLab with
          | some p => some p
          | none => ev.personId }
    | none => ev
  let ev2 := match patch.score with
    | some s => { ev1 with score := s }
    | none => ev1
  match patch.ts with
  | some t =>
    if (parse t).isNone then .error "invalid timestamp format"
    else .ok { ev2 with ts := t }
  | none => .ok ev2

/-- Patch the first event carrying the id (`none`: no such event). -/
def patchFirst (resolve : String → Option String) (parse : String → Option ℚ)
    (patch : EventPatch) (eventId : ℤ) :
    List AttEvent → Option (Except String (List AttEvent))
  | [] => none
  | ev :: rest =>
    if ev.id = eventId then
      some (match applyPatch resolve parse patch ev with
        | .error e => .error e
        | .ok ev1 => .ok (ev1 :: rest))
    else (patchFirst resolve parse patch eventId rest).map (fun r => r.map (ev :: ·))

/-- `main_fastapi.admin_attendance_event_update(event_id, payload)`:
load the snapshot, patch the event in place, rebuild all four derived maps
from scratch, persist.  Errors model the 404 / 400 responses. -/
def adminAttendanceEventUpdate (cache : Option AttDb) (fetched : AttDb)
    (resolve : String → Option String) (parse : String → Option ℚ)
    (eventId : ℤ) (patch : EventPatch) : Except String AttDb :=
  let db := (loadAttendanceDb cache fetched).1
  match patchFirst resolve parse patch eventId db.events with
  | none => .error "event not found"
  | some (.error e) => .error e
  | some (.ok evs) =>
    let m := rebuildMaps resolve parse evs
    .ok { db with
      events := evs
      last := m.last
      count := m.count
      lastId := m.lastId
      countId := m.countId }

/-- `main_fastapi.admin_attendance_event_delete(event_id)`: drop the
event(s) with the id, rebuild all four derived maps from scratch,
persist. -/
def adminAttendanceEventDelete (cache : Option AttDb) (fetched : AttDb)
    (resolve : String → Option String) (parse : String → Option ℚ)
    (eventId : ℤ) : Except String AttDb :=
  let db := (loadAttendanceDb cache fetched).1
  let newEvents := db.events.filter (fun ev => ev.id ≠ eventId)
  if newEvents.length = db.events.length then .error "event not found"
  else
    let m := rebuildMaps resolve parse newEvents
    .ok { db with
      events := newEvents
      last := m.last
      count := m.count
      lastId := m.lastId
      countId := m.countId }

/-! ## Claim C2 — mark_attendance cooldown decision -/

/-- Helper for C2: the decision of `mark_attendance` as a function of the
cooldown reference value `g` (the map entry with a missing key read as 0). -/
theorem markAttendance_decision_of_ref
    (cache : Option AttDb) (fetched : AttDb) (resolve : String → Option String)
    (label : String) (score now : ℚ) (nowIso : String) (cooldownSec : ℤ)
    (g : ℚ)
    (hg : (match resolve label with
      | some p => (((loadAttendanceDb cache fetched).1).lastId p).getD 0
      | none => (((loadAttendanceDb cache fetched).1).last label).getD 0) = g) :
    markAttendance cache fetched resolve label score now nowIso cooldownSec =
      (if g ≠ 0 ∧ (if now - g < 0 then (cooldownSec : ℚ) else now - g) < (cooldownSec : ℚ) then
        ⟨false, (loadAttendanceDb cache fetched).2, false⟩
      else
        let db := (loadAttendanceDb cache fetched).1
        let ev : AttEvent := ⟨db.seq + 1, label, roundQ3 score, nowIso, resolve label⟩
        let evs := ev :: db.events
        let evs := if evs.length > MAX_ATT_EVENTS then evs.take MAX_ATT_EVENTS else evs
        ⟨true, some
          { events := evs
            last := updQ db.last label now
            lastId := match resolve label with
              | some p => updQ db.lastId p now
              | none => db.lastId
            count := updZ db.count label ((db.count label).getD 0 + 1)
            countId := match resolve label with
              | some p => updZ db.countId p ((db.countId p).getD 0 + 1)
              | none => db.countId
            seq := db.seq + 1 }, true⟩) := by
  rcases hres : resolve label with _ | p <;>
    simp only [hres] at hg <;>
    simp only [markAttendance, hres, hg]

/-- C2: for every call to `mark_attendance(label, score)`, with `ref` the
cooldown reference (`last_id[person_id]` when the label resolves, else
`last[label]`; a missing entry reads as 0), the call returns `False` and
admits nothing when `0 < now - ref < cooldown_sec`, and returns `True` and
admits an event (fresh sequence id, event prepended, list trimmed to the
cap) when the reference is absent, when `now - ref ≥ cooldown_sec`, or
when `ref > now` (clock skew treated as ready). -/
theorem markAttendance_cooldown_rule
    (cache : Option AttDb) (fetched : AttDb) (resolve : String → Option String)
    (label : String) (score now : ℚ) (nowIso : String) (cooldownSec : ℤ)
    (ref : ℚ)
    (href : (match resolve label with
      | some p => (((loadAttendanceDb cache fetched).1).lastId p).getD 0
      | none => (((loadAttendanceDb cache fetched).1).last label).getD 0) = ref) :
    ((ref ≠ 0 ∧ 0 < now - ref ∧ now - ref < (cooldownSec : ℚ)) →
      (markAttendance cache fetched resolve label score now nowIso cooldownSec).admitted
          = false
        ∧ (markAttendance cache fetched resolve label score now nowIso cooldownSec).persist
          = false)
    ∧ ((ref = 0 ∨ (cooldownSec : ℚ) ≤ now - ref ∨ now < ref) →
      (markAttendance cache fetched resolve label score now nowIso cooldownSec).admitted
          = true
        ∧ (markAttendance cache fetched resolve label score now nowIso cooldownSec).persist
          = true
        ∧ ∀ db1,
          (markAttendance cache fetched resolve label score now nowIso cooldownSec).cache
            = some db1 →
          db1.events.head? = some
              ⟨(loadAttendanceDb cache fetched).1.seq + 1, label, roundQ3 score, nowIso,
                resolve label⟩
            ∧ db1.events.length
              = min ((loadAttendanceDb cache fetched).1.events.length + 1) MAX_ATT_EVENTS) := by
  rw [markAttendance_decision_of_ref cache fetched resolve label score now nowIso cooldownSec
    ref href]
  constructor
  · rintro ⟨hne, hpos, hlt⟩
    rw [if_pos ⟨hne, by rw [if_neg (by linarith)]; exact hlt⟩]
    exact ⟨rfl, rfl⟩
  · rintro h
    have hcond : ¬ (ref ≠ 0 ∧
        (if now - ref < 0 then (cooldownSec : ℚ) else now - ref) < (cooldownSec : ℚ)) := by
      rcases h with h0 | hge | hskew
      · exact fun hc => hc.1 h0
      · rintro ⟨-, hc⟩
        by_cases hn : now - ref < 0
        · rw [if_pos hn] at hc; exact lt_irrefl _ hc
        · rw [if_neg hn] at hc; linarith
      · rintro ⟨-, hc⟩
        rw [if_pos (by linarith)] at hc
        exact lt_irrefl _ hc
    rw [if_neg hcond]
    refine ⟨rfl, rfl, fun db1 hdb1 => ?_⟩
    simp only at hdb1
    obtain rfl := Option.some.inj hdb1
    constructor
    · split
      · rw [List.take_cons (by norm_num [MAX_ATT_EVENTS])]
        rfl
      · rfl
    · split
      · next hlen =>
        rw [List.length_take]
        simp only [List.length_cons] at hlen ⊢
        omega
      · next hlen =>
        simp only [List.length_cons, not_lt] at hlen ⊢
        omega

/-- Concrete snapshot used by the cooldown witnesses: label "A" last marked
at epoch 40 with one event recorded. -/
def dbC2 : AttDb :=
  { events := [⟨1, "A", 1/2, "t0", none⟩]
    last := fun l => if l = "A" then some 40 else none
    lastId := fun _ => none
    count := fun l => if l = "A" then some 1 else none
    countId := fun _ => none
    seq := 1 }

/-- Witness for C2: with last mark at 40 and cooldown 60, marking at 50 is
rejected and marking at 500 is admitted. -/
theorem markAttendance_cooldown_rule_witness :
    ((40 : ℚ) ≠ 0 ∧ 0 < (50 : ℚ) - 40 ∧ (50 : ℚ) - 40 < ((60 : ℤ) : ℚ))
    ∧ (markAttendance (some dbC2) dbC2 (fun _ => none) "A" (1/2) 50 "t" 60).admitted = false
    ∧ (markAttendance (some dbC2) dbC2 (fun _ => none) "A" (1/2) 500 "t" 60).admitted = true := by
  refine ⟨by norm_num, ?_, ?_⟩
  · exact ((markAttendance_cooldown_rule (some dbC2) dbC2 (fun _ => none) "A" (1/2) 50 "t" 60
      40 (by norm_num [loadAttendanceDb, dbC2])).1 (by norm_num)).1
  · exact ((markAttendance_cooldown_rule (some dbC2) dbC2 (fun _ => none) "A" (1/2) 500 "t" 60
      40 (by norm_num [loadAttendanceDb, dbC2])).2 (by norm_num)).1

/-! ## Claim C9 — a rejected mark leaves the snapshot untouched -/

/-- C9: when `mark_attendance` returns `False` (cooldown not yet elapsed),
the shared attendance snapshot is left exactly as it was (so no event is
appended and `att_event_seq` and all four derived maps keep their prior
values) and no write-through persist is scheduled: the function mutates
only a deep copy and publishes it only on the admit path. -/
theorem markAttendance_reject_pure
    (snap fetched : AttDb) (resolve : String → Option String) (label : String)
    (score now : ℚ) (nowIso : String) (cooldownSec : ℤ) (ref : ℚ)
    (href : (match resolve label with
      | some p => (snap.lastId p).getD 0
      | none => (snap.last label).getD 0) = ref)
    (h1 : ref ≠ 0) (h2 : 0 ≤ now - ref) (h3 : now - ref < (cooldownSec : ℚ)) :
    markAttendance (some snap) fetched resolve label score now nowIso cooldownSec =
      ⟨false, some snap, false⟩ := by
  rw [markAttendance_decision_of_ref (some snap) fetched resolve label score now nowIso
    cooldownSec ref href]
  rw [if_pos ⟨h1, by rw [if_neg (not_lt.mpr h2)]; exact h3⟩]
  rfl

/-- Witness for C9: the rejected call at 50 returns the snapshot it was
given, unchanged, with no persist. -/
theorem markAttendance_reject_pure_witness :
    ((40 : ℚ) ≠ 0 ∧ 0 ≤ (50 : ℚ) - 40 ∧ (50 : ℚ) - 40 < ((60 : ℤ) : ℚ))
    ∧ markAttendance (some dbC2) dbC2 (fun _ => none) "A" (1/2) 50 "t" 60 =
      ⟨false, some dbC2, false⟩ := by
  refine ⟨by norm_num, ?_⟩
  exact markAttendance_reject_pure dbC2 dbC2 (fun _ => none) "A" (1/2) 50 "t" 60 40
    (by norm_num [dbC2]) (by norm_num) (by norm_num) (by norm_num)

/-! ## Claim C6 — shape of a cooldown denial -/

/-- C6 (amended): when the attendance-service admission gate denies, it
returns code `"cooldown"` together with `last_ts`, `last_iso`, `until_ts`,
`until_iso`, `cooldown_sec` and `remaining_sec`; the denial info
additionally carries the user-facing message string
`"Cooldown <n>s (<humanized>)"`. -/
theorem checkMarkBlockService_denial_shape
    (cache : Option AttDb) (fetched : AttDb) (resolve : String → Option String)
    (label : String) (now : ℚ) (cooldownSec : ℤ) (fmt : ℚ → String)
    (h : (checkMarkBlockService cache fetched resolve label now cooldownSec fmt).1 = false) :
    (checkMarkBlockService cache fetched resolve label now cooldownSec fmt).2.1 = "cooldown"
    ∧ ∃ lastv n,
      (checkMarkBlockService cache fetched resolve label now cooldownSec fmt).2.2.lastTs
        = some lastv
      ∧ (checkMarkBlockService cache fetched resolve label now cooldownSec fmt).2.2.lastIso
        = some (fmt lastv)
      ∧ (checkMarkBlockService cache fetched resolve label now cooldownSec fmt).2.2.untilTs
        = some (lastv + cooldownSec)
      ∧ (checkMarkBlockService cache fetched resolve label now cooldownSec fmt).2.2.untilIso
        = some (fmt (lastv + cooldownSec))
      ∧ (checkMarkBlockService cache fetched resolve label now cooldownSec fmt).2.2.cooldownSec
        = some cooldownSec
      ∧ (checkMarkBlockService cache fetched resolve label now cooldownSec fmt).2.2.remainingSec
        = some n
      ∧ 0 < n
      ∧ (checkMarkBlockService cache fetched resolve label now cooldownSec fmt).2.2.message
        = some s!"Cooldown {n}s ({humanizeSecs n})" := by
  obtain ⟨g, hgdef⟩ : ∃ g : ℚ, (match resolve label with
      | some p => (((loadAttendanceDb cache fetched).1).lastId p).getD 0
      | none => (((loadAttendanceDb cache fetched).1).last label).getD 0) = g := ⟨_, rfl⟩
  simp only [checkMarkBlockService, hgdef] at h ⊢
  split_ifs at h ⊢ with h0 hskew hpos hpos2
  · exfalso; norm_num [pyInt] at hpos
  · exact ⟨rfl, g, pyInt ((cooldownSec : ℚ) - (now - g)), by simp [h0], by simp [h0],
      rfl, rfl, rfl, rfl, hpos2, rfl⟩

/-- Counterexample for C6: a concrete cooldown denial of the
attendance-service gate whose info DOES carry a user-facing message string
("Cooldown 50s (50 detik)"), contradicting the claim that the denial
information contains no user-facing string. -/
theorem checkMarkBlockService_message_not_neutral :
    (checkMarkBlockService (some dbC2) dbC2 (fun _ => none) "A" 50 60 (fun _ => "x")).1 = false
    ∧ (checkMarkBlockService (some dbC2) dbC2 (fun _ => none) "A" 50 60 (fun _ => "x")).2.1
      = "cooldown"
    ∧ (checkMarkBlockService (some dbC2) dbC2 (fun _ => none) "A" 50 60 (fun _ => "x")).2.2.message
      = some "Cooldown 50s (50 detik)" := by
  refine ⟨?_, ?_, ?_⟩ <;>
    norm_num [checkMarkBlockService, loadAttendanceDb, dbC2, pyInt, humanizeSecs]
  decide

/-- Witness for the amended C6 theorem at the same concrete denial. -/
theorem checkMarkBlockService_denial_shape_witness :
    (checkMarkBlockService (some dbC2) dbC2 (fun _ => none) "A" 50 60 (fun _ => "x")).1 = false
    ∧ (checkMarkBlockService (some dbC2) dbC2 (fun _ => none) "A" 50 60 (fun _ => "x")).2.1
      = "cooldown"
    ∧ ((checkMarkBlockService (some dbC2) dbC2 (fun _ => none) "A" 50 60
        (fun _ => "x")).2.2.remainingSec).isSome = true := by
  have h : (checkMarkBlockService (some dbC2) dbC2 (fun _ => none) "A" 50 60 (fun _ => "x")).1
      = false := by
    norm_num [checkMarkBlockService, loadAttendanceDb, dbC2, pyInt]
  obtain ⟨hc, lastv, n, -, -, -, -, -, hrem, -, -⟩ :=
    checkMarkBlockService_denial_shape (some dbC2) dbC2 (fun _ => none) "A" 50 60
      (fun _ => "x") h
  exact ⟨h, hc, by rw [hrem]; rfl⟩

/-! ## Claim C7 — repository retry policy -/

/-- Unfolding: a successful execution returns at once. -/
theorem execRetry_succ_success (outcome : ℕ → DbOutcome) (jitter : ℕ → ℚ) (i r : ℕ)
    (h : outcome i = .success) :
    execRetry outcome jitter i (r + 1) = ⟨true, none, 1, []⟩ := by
  rw [execRetry.eq_def]
  simp [h]

/-- Unfolding: a non-retryable failure re-raises at once, with no sleep. -/
theorem execRetry_succ_noretry (outcome : ℕ → DbOutcome) (jitter : ℕ → ℚ) (i r : ℕ)
    (st : Option ℤ) (ra : Option ℚ)
    (h : outcome i = .failure st ra) (hr : shouldRetry st = false) :
    execRetry outcome jitter i (r + 1) = ⟨false, some st, 1, []⟩ := by
  rw [execRetry.eq_def]
  simp [h, hr]

/-- Unfolding: a retryable failure on the last permitted attempt sleeps and
then re-raises it. -/
theorem execRetry_last_retry (outcome : ℕ → DbOutcome) (jitter : ℕ → ℚ) (i : ℕ)
    (st : Option ℤ) (ra : Option ℚ)
    (h : outcome i = .failure st ra) (hr : shouldRetry st = true) :
    execRetry outcome jitter i 1 = ⟨false, some st, 1, [sleepBackoff i ra (jitter i)]⟩ := by
  rw [execRetry.eq_def]
  simp [h, hr]

/-- Unfolding: a retryable failure with attempts left sleeps and retries. -/
theorem execRetry_step_retry (outcome : ℕ → DbOutcome) (jitter : ℕ → ℚ) (i r : ℕ)
    (st : Option ℤ) (ra : Option ℚ)
    (h : outcome i = .failure st ra) (hr : shouldRetry st = true) :
    execRetry outcome jitter i (r + 2) =
      ⟨(execRetry outcome jitter (i + 1) (r + 1)).ok,
        (execRetry outcome jitter (i + 1) (r + 1)).raised,
        (execRetry outcome jitter (i + 1) (r + 1)).execs + 1,
        sleepBackoff i ra (jitter i) :: (execRetry outcome jitter (i + 1) (r + 1)).sleeps⟩ := by
  rw [execRetry.eq_def]
  simp [h, hr]

/-- The loop executes the query at most as often as it has attempts. -/
theorem execRetry_execs_le (outcome : ℕ → DbOutcome) (jitter : ℕ → ℚ) :
    ∀ r i, (execRetry outcome jitter i r).execs ≤ r := by
  intro r
  induction r with
  | zero => intro i; simp [execRetry]
  | succ r ih =>
    intro i
    rcases h : outcome i with _ | ⟨st, ra⟩
    · rw [execRetry_succ_success outcome jitter i r h]
      simp
    · by_cases hr : shouldRetry st = true
      · match r with
        | 0 =>
          rw [execRetry_last_retry outcome jitter i st ra h hr]
        | r1 + 1 =>
          rw [execRetry_step_retry outcome jitter i r1 st ra h hr]
          have := ih (i + 1)
          simpa using Nat.add_le_add_right this 1
      · rw [execRetry_succ_noretry outcome jitter i r st ra h (by simpa using hr)]
        simp

/-- C7: under the default of 3 attempts, an execute call (a) runs the query
at most 3 times; (b) after a prefix of retryable failures (no status, 429,
or 5xx), a non-retryable failure at attempt `i` is re-raised immediately
with exactly `i + 1` executions and one backoff sleep per preceding retry,
and a success at attempt `i` returns with the same sleeps; (c) three
retryable failures exhaust the attempts and re-raise the last error after
three sleeps; (d) each sleep is `min(5, 0.4·2^attempt) + jitter` with
`jitter ∈ [0, 0.2)` — except that a present Retry-After hint of `ra`
seconds is slept instead (clamped below at 0). -/
theorem executeWithRetry_policy
    (outcome : ℕ → DbOutcome) (jitter : ℕ → ℚ)
    (sts : ℕ → Option ℤ) (ras : ℕ → Option ℚ)
    (hj : ∀ i, 0 ≤ jitter i ∧ jitter i < 1/5) :
    (executeWithRetry outcome jitter 3).execs ≤ 3
    ∧ (∀ i, i < 3 →
        (∀ j, j < i → outcome j = .failure (sts j) (ras j) ∧ shouldRetry (sts j) = true) →
        ((∀ st ra, outcome i = .failure st ra → shouldRetry st = false →
            executeWithRetry outcome jitter 3 =
              ⟨false, some st, i + 1,
                (List.range i).map (fun j => sleepBackoff j (ras j) (jitter j))⟩)
          ∧ (outcome i = .success →
            executeWithRetry outcome jitter 3 =
              ⟨true, none, i + 1,
                (List.range i).map (fun j => sleepBackoff j (ras j) (jitter j))⟩)))
    ∧ ((∀ j, j < 3 → outcome j = .failure (sts j) (ras j) ∧ shouldRetry (sts j) = true) →
        executeWithRetry outcome jitter 3 =
          ⟨false, some (sts 2), 3,
            (List.range 3).map (fun j => sleepBackoff j (ras j) (jitter j))⟩)
    ∧ (∀ j, (ras j = none →
          sleepBackoff j (ras j) (jitter j) = min 5 (2/5 * 2 ^ j) + jitter j
          ∧ min 5 (2/5 * 2 ^ j) ≤ sleepBackoff j (ras j) (jitter j)
          ∧ sleepBackoff j (ras j) (jitter j) < min 5 (2/5 * 2 ^ j) + 1/5)
        ∧ (∀ ra, ras j = some ra → sleepBackoff j (ras j) (jitter j) = max 0 ra)) := by
  refine ⟨execRetry_execs_le outcome jitter 3 0, ?_, ?_, ?_⟩
  · intro i hi hpre
    interval_cases i
    · constructor
      · intro st ra hof hnr
        show execRetry outcome jitter 0 (2 + 1) = _
        rw [execRetry_succ_noretry outcome jitter 0 2 st ra hof hnr]
        simp
      · intro hof
        show execRetry outcome jitter 0 (2 + 1) = _
        rw [execRetry_succ_success outcome jitter 0 2 hof]
        simp
    · obtain ⟨h0f, h0r⟩ := hpre 0 (by omega)
      constructor
      · intro st ra hof hnr
        show execRetry outcome jitter 0 (1 + 2) = _
        rw [execRetry_step_retry outcome jitter 0 1 (sts 0) (ras 0) h0f h0r]
        rw [execRetry_succ_noretry outcome jitter 1 1 st ra hof hnr]
        simp [List.range_succ]
      · intro hof
        show execRetry outcome jitter 0 (1 + 2) = _
        rw [execRetry_step_retry outcome jitter 0 1 (sts 0) (ras 0) h0f h0r]
        rw [execRetry_succ_success outcome jitter 1 1 hof]
        simp [List.range_succ]
    · obtain ⟨h0f, h0r⟩ := hpre 0 (by omega)
      obtain ⟨h1f, h1r⟩ := hpre 1 (by omega)
      constructor
      · intro st ra hof hnr
        show execRetry outcome jitter 0 (1 + 2) = _
        rw [execRetry_step_retry outcome jitter 0 1 (sts 0) (ras 0) h0f h0r]
        rw [show (1 : ℕ) + 1 = 0 + 2 from rfl]
        rw [execRetry_step_retry outcome jitter 1 0 (sts 1) (ras 1) h1f h1r]
        rw [execRetry_succ_noretry outcome jitter 2 0 st ra hof hnr]
        simp [List.range_succ]
      · intro hof
        show execRetry outcome jitter 0 (1 + 2) = _
        rw [execRetry_step_retry outcome jitter 0 1 (sts 0) (ras 0) h0f h0r]
        rw [show (1 : ℕ) + 1 = 0 + 2 from rfl]
        rw [execRetry_step_retry outcome jitter 1 0 (sts 1) (ras 1) h1f h1r]
        rw [execRetry_succ_success outcome jitter 2 0 hof]
        simp [List.range_succ]
  · intro hall
    obtain ⟨h0f, h0r⟩ := hall 0 (by omega)
    obtain ⟨h1f, h1r⟩ := hall 1 (by omega)
    obtain ⟨h2f, h2r⟩ := hall 2 (by omega)
    show execRetry outcome jitter 0 (1 + 2) = _
    rw [execRetry_step_retry outcome jitter 0 1 (sts 0) (ras 0) h0f h0r]
    rw [show (1 : ℕ) + 1 = 0 + 2 from rfl]
    rw [execRetry_step_retry outcome jitter 1 0 (sts 1) (ras 1) h1f h1r]
    rw [execRetry_last_retry outcome jitter 2 (sts 2) (ras 2) h2f h2r]
    simp [List.range_succ]
  · intro j
    constructor
    · intro hra
      rw [hra]
      refine ⟨rfl, ?_, ?_⟩
      · have := (hj j).1
        simp only [sleepBackoff, backoffBase]
        linarith
      · have := (hj j).2
        simp only [sleepBackoff, backoffBase]
        linarith
    · intro ra hra
      rw [hra]
      rfl

/-- Outcome trace for the C7 witness: a 500 on the first attempt, then
success. -/
def outcomeW : ℕ → DbOutcome :=
  fun n => if n = 0 then .failure (some 500) none else .success

/-- Witness for C7: one retryable 500, then success — two executions and a
single backoff sleep of 0.4 + 0.1 = 0.5 s. -/
theorem executeWithRetry_policy_witness :
    (∀ _i : ℕ, (0 : ℚ) ≤ 1/10 ∧ (1 : ℚ)/10 < 1/5)
    ∧ executeWithRetry outcomeW (fun _ => 1/10) 3 = ⟨true, none, 2, [1/2]⟩ := by
  have hj : ∀ i : ℕ, 0 ≤ ((fun _ => (1 : ℚ)/10) i) ∧ ((fun _ => (1 : ℚ)/10) i) < 1/5 :=
    fun _ => by norm_num
  have hmain := (executeWithRetry_policy outcomeW (fun _ => 1/10)
      (fun _ => some 500) (fun _ => none) hj).2.1 1 (by omega)
      (fun j hjlt => by
        interval_cases j
        exact ⟨rfl, by norm_num [shouldRetry]⟩)
  have h2 := hmain.2 rfl
  refine ⟨fun _ => by norm_num, ?_⟩
  rw [h2]
  norm_num [List.range_succ, sleepBackoff, backoffBase]

/-! ## Claim C1 — which override the schedule resolver picks -/

/-- A 1-day override (day 10 only) with check-in 10:00, no targets. -/
def ovOne : Override :=
  { startDate := some 10, endDate := some 10, enabled := true, checkIn := "10:00",
    checkOut := "17:00", graceIn := some 10, graceOut := some 5,
    label := "Jadwal Satu Hari", notes := "", targets := [] }

/-- A 7-day override (days 10..16) with check-in 09:30, no targets. -/
def ovSeven : Override :=
  { startDate := some 10, endDate := some 16, enabled := true, checkIn := "09:30",
    checkOut := "17:00", graceIn := some 10, graceOut := some 5,
    label := "Jadwal Tujuh Hari", notes := "", targets := [] }

/-- Empty people/group context (no person ids, no groups). -/
def pctxEmpty : PeopleCtx := ⟨fun _ => none, fun _ => none, [], []⟩

/-- A plain attendance config with no weekly rules. -/
def cfgPlain : AttConfig := ⟨[], true, "09:00", "17:00", "", ""⟩

/-- Counterexample for C1: on day 10 both the 1-day override (check-in
10:00, span 1 day) and the 7-day override (check-in 09:30, span 7 days)
are active and match; with the 1-day override listed first the resolver
returns check-in 09:30 — the LAST match in list order, not the
narrowest-span one (1 < 7), refuting the narrowest-span rule and the S4
expectation of 10:00. -/
theorem findSchedule_narrowest_span_fails :
    (findScheduleForDay pctxEmpty cfgPlain 10 5 10 (3 : Fin 7) "X" none
        [ovOne, ovSeven]).source = "override"
    ∧ (findScheduleForDay pctxEmpty cfgPlain 10 5 10 (3 : Fin 7) "X" none
        [ovOne, ovSeven]).checkIn = "09:30"
    ∧ (findScheduleForDay pctxEmpty cfgPlain 10 5 10 (3 : Fin 7) "X" none
        [ovOne, ovSeven]).chosenOverride = some ovSeven
    ∧ ovOne.checkIn = "10:00"
    ∧ ovOne.startDate = some 10 ∧ ovOne.endDate = some 10
    ∧ ovSeven.startDate = some 10 ∧ ovSeven.endDate = some 16
    ∧ overrideActiveOn 10 ovOne = true ∧ overrideActiveOn 10 ovSeven = true
    ∧ overrideMatchesLabel pctxEmpty ovOne "X" none = true
    ∧ overrideMatchesLabel pctxEmpty ovSeven "X" none = true
    ∧ "09:30" ≠ "10:00" := by
  refine ⟨rfl, rfl, rfl, rfl, rfl, rfl, rfl, rfl, rfl, rfl, rfl, rfl, by decide⟩

/-- C1 (amended): among the overrides active on the date and matching the
identity, the resolver selects the override that appears LAST in the
configured override list (the list is loaded sorted by ascending
start_date, so the latest-start match wins regardless of span), and
returns its schedule with source "override". -/
theorem findSchedule_last_active_match_wins
    (pctx : PeopleCtx) (cfg : AttConfig) (graceInD graceOutD : ℤ) (d : ℤ)
    (weekday : Fin 7) (label : String) (personId : Option String)
    (overrides : List Override) (best : Override)
    (h : (overrides.filter
        (fun ov => overrideActiveOn d ov && overrideMatchesLabel pctx ov label personId)).getLast?
      = some best) :
    findScheduleForDay pctx cfg graceInD graceOutD d weekday label personId overrides
      = overrideSchedule graceInD graceOutD best
    ∧ (findScheduleForDay pctx cfg graceInD graceOutD d weekday label personId
        overrides).source = "override"
    ∧ (findScheduleForDay pctx cfg graceInD graceOutD d weekday label personId
        overrides).checkIn = best.checkIn
    ∧ best ∈ overrides
    ∧ overrideActiveOn d best = true
    ∧ overrideMatchesLabel pctx best label personId = true := by
  have hmem : best ∈ overrides.filter
      (fun ov => overrideActiveOn d ov && overrideMatchesLabel pctx ov label personId) := by
    obtain ⟨hne, heq⟩ := List.mem_getLast?_eq_getLast (Option.mem_def.mpr h)
    rw [heq]
    exact List.getLast_mem hne
  have hmem2 := List.mem_filter.mp hmem
  have hsel : findScheduleForDay pctx cfg graceInD graceOutD d weekday label personId overrides
      = overrideSchedule graceInD graceOutD best := by
    simp only [findScheduleForDay]
    rw [h]
  refine ⟨hsel, ?_, ?_, hmem2.1, ?_, ?_⟩
  · rw [hsel]; rfl
  · rw [hsel]; rfl
  · exact (Bool.and_eq_true_iff.mp hmem2.2).1
  · exact (Bool.and_eq_true_iff.mp hmem2.2).2

/-- Witness for the amended C1: with the 1-day override listed after the
7-day one (the ascending-start_date order when it starts later), the
resolver returns its 10:00 check-in. -/
theorem findSchedule_last_active_match_wins_witness :
    (([ovSeven, ovOne].filter
        (fun ov => overrideActiveOn 10 ov && overrideMatchesLabel pctxEmpty ov "X" none)).getLast?
      = some ovOne)
    ∧ (findScheduleForDay pctxEmpty cfgPlain 10 5 10 (3 : Fin 7) "X" none
        [ovSeven, ovOne]).checkIn = "10:00" := by
  have h : ([ovSeven, ovOne].filter
      (fun ov => overrideActiveOn 10 ov && overrideMatchesLabel pctxEmpty ov "X" none)).getLast?
      = some ovOne := rfl
  refine ⟨h, ?_⟩
  have := (findSchedule_last_active_match_wins pctxEmpty cfgPlain 10 5 10 (3 : Fin 7) "X" none
    [ovSeven, ovOne] ovOne h).2.2.1
  rw [this]
  rfl

/-! ## Claim C5 — FaceEngine.match argmax and tie-break -/

/-- The scan of `np.argmax` keeps the first maximum: the result is either
the initial best index (when nothing beats the initial value) or points at
the first element strictly above everything before it and at least
everything after. -/
theorem argmaxFrom_spec (ys : List ℚ) : ∀ (bi i : ℕ) (bv : ℚ),
    (argmaxFrom bi bv i ys = bi ∧ (∀ k (hk : k < ys.length), ys.get ⟨k, hk⟩ ≤ bv))
    ∨ (∃ k, ∃ hk : k < ys.length,
        argmaxFrom bi bv i ys = i + k
        ∧ bv < ys.get ⟨k, hk⟩
        ∧ (∀ j (hj : j < ys.length), ys.get ⟨j, hj⟩ ≤ ys.get ⟨k, hk⟩)
        ∧ (∀ j (hj : j < k), ys.get ⟨j, Nat.lt_trans hj hk⟩ < ys.get ⟨k, hk⟩)) := by
  induction ys with
  | nil =>
    intro bi i bv
    left
    constructor
    · rfl
    · intro k hk; simp at hk
  | cons y ys ih =>
    intro bi i bv
    by_cases hlt : bv < y
    · rcases ih i (i + 1) y with ⟨hres, hbound⟩ | ⟨k, hk, hres, hval, hbound, hstrict⟩
      · right
        refine ⟨0, by simp, ?_, ?_, ?_, ?_⟩
        · show argmaxFrom bi bv i (y :: ys) = i + 0
          simp only [argmaxFrom, if_pos hlt]
          rw [hres]
          omega
        · exact hlt
        · intro j hj
          match j with
          | 0 => show y ≤ y; exact le_refl y
          | j + 1 =>
            have hj2 : j < ys.length := by simpa using hj
            show ys.get ⟨j, hj2⟩ ≤ y
            exact hbound j hj2
        · intro j hj; omega
      · right
        refine ⟨k + 1, by simpa using Nat.succ_lt_succ hk, ?_, ?_, ?_, ?_⟩
        · show argmaxFrom bi bv i (y :: ys) = i + (k + 1)
          simp only [argmaxFrom, if_pos hlt]
          rw [hres]; omega
        · show bv < ys.get ⟨k, hk⟩
          linarith [hval]
        · intro j hj
          match j with
          | 0 =>
            show y ≤ ys.get ⟨k, hk⟩
            linarith [hval]
          | j + 1 =>
            have hj2 : j < ys.length := by simpa using hj
            show ys.get ⟨j, hj2⟩ ≤ ys.get ⟨k, hk⟩
            exact hbound j hj2
        · intro j hj
          match j with
          | 0 =>
            show y < ys.get ⟨k, hk⟩
            exact hval
          | j + 1 =>
            have hj2 : j < k := by omega
            show ys.get ⟨j, Nat.lt_trans hj2 hk⟩ < ys.get ⟨k, hk⟩
            exact hstrict j hj2
    · rcases ih bi (i + 1) bv with ⟨hres, hbound⟩ | ⟨k, hk, hres, hval, hbound, hstrict⟩
      · left
        constructor
        · show argmaxFrom bi bv i (y :: ys) = bi
          simp only [argmaxFrom, if_neg hlt]
          exact hres
        · intro k hk
          match k with
          | 0 => show y ≤ bv; exact le_of_not_lt hlt
          | k + 1 =>
            have hk2 : k < ys.length := by simpa using hk
            show ys.get ⟨k, hk2⟩ ≤ bv
            exact hbound k hk2
      · right
        refine ⟨k + 1, by simpa using Nat.succ_lt_succ hk, ?_, ?_, ?_, ?_⟩
        · show argmaxFrom bi bv i (y :: ys) = i + (k + 1)
          simp only [argmaxFrom, if_neg hlt]
          rw [hres]; omega
        · show bv < ys.get ⟨k, hk⟩
          exact hval
        · intro j hj
          match j with
          | 0 =>
            show y ≤ ys.get ⟨k, hk⟩
            linarith [le_of_not_lt hlt, hval]
          | j + 1 =>
            have hj2 : j < ys.length := by simpa using hj
            show ys.get ⟨j, hj2⟩ ≤ ys.get ⟨k, hk⟩
            exact hbound j hj2
        · intro j hj
          match j with
          | 0 =>
            show y < ys.get ⟨k, hk⟩
            linarith [le_of_not_lt hlt, hval]
          | j + 1 =>
            have hj2 : j < k := by omega
            show ys.get ⟨j, Nat.lt_trans hj2 hk⟩ < ys.get ⟨k, hk⟩
            exact hstrict j hj2

/-- `np.argmax` on a non-empty vector returns the index of the first
occurrence of the maximum. -/
theorem npArgmax_spec (sims : List ℚ) (h : sims ≠ []) :
    ∃ k, ∃ hk : k < sims.length,
      npArgmax sims = k
      ∧ (∀ j (hj : j < sims.length), sims.get ⟨j, hj⟩ ≤ sims.get ⟨k, hk⟩)
      ∧ (∀ j (hj : j < k), sims.get ⟨j, Nat.lt_trans hj hk⟩ < sims.get ⟨k, hk⟩) := by
  match sims, h with
  | x :: xs, _ =>
    rcases argmaxFrom_spec xs 0 1 x with ⟨hres, hbound⟩ | ⟨k, hk, hres, hval, hbound, hstrict⟩
    · refine ⟨0, by simp, ?_, ?_, ?_⟩
      · show argmaxFrom 0 x 1 xs = 0
        exact hres
      · intro j hj
        match j with
        | 0 => exact le_refl _
        | j + 1 =>
          have hj2 : j < xs.length := by simpa using hj
          show xs.get ⟨j, hj2⟩ ≤ x
          exact hbound j hj2
      · intro j hj; omega
    · refine ⟨k + 1, by simpa using Nat.succ_lt_succ hk, ?_, ?_, ?_⟩
      · show argmaxFrom 0 x 1 xs = k + 1
        rw [hres]
        omega
      · intro j hj
        match j with
        | 0 =>
          show x ≤ xs.get ⟨k, hk⟩
          linarith [hval]
        | j + 1 =>
          have hj2 : j < xs.length := by simpa using hj
          show xs.get ⟨j, hj2⟩ ≤ xs.get ⟨k, hk⟩
          exact hbound j hj2
      · intro j hj
        match j with
        | 0 =>
          show x < xs.get ⟨k, hk⟩
          exact hval
        | j + 1 =>
          have hj2 : j < k := by omega
          show xs.get ⟨j, Nat.lt_trans hj2 hk⟩ < xs.get ⟨k, hk⟩
          exact hstrict j hj2

/-- Unfolding of `engineMatch` on a non-empty index. -/
theorem engineMatch_cons (e : String × List ℚ) (rest : List (String × List ℚ))
    (probe : List ℚ) :
    engineMatch (e :: rest) probe =
      (((((e :: rest).get?
          (npArgmax ((e :: rest).map (fun x => dotQ x.2 probe)))).map Prod.fst).getD "Unknown"),
        ((((e :: rest).map (fun x => dotQ x.2 probe)).get?
          (npArgmax ((e :: rest).map (fun x => dotQ x.2 probe)))).getD 0)) := rfl

/-- C5 (amended): on an empty index `match` returns ("Unknown", 0); on a
non-empty index it returns an entry attaining the maximum dot-product
similarity — and among tied entries the FIRST in insertion order, so the
tie-break depends on insertion order rather than ascending label. -/
theorem engineMatch_max_first_tie (db : List (String × List ℚ)) (probe : List ℚ) :
    engineMatch [] probe = ("Unknown", 0)
    ∧ (db ≠ [] → ∃ k, k < db.length
        ∧ engineMatch db probe
          = ((db.getD k ("", [])).1, dotQ (db.getD k ("", [])).2 probe)
        ∧ (∀ j, j < db.length →
            dotQ (db.getD j ("", [])).2 probe ≤ dotQ (db.getD k ("", [])).2 probe)
        ∧ (∀ j, j < k →
            dotQ (db.getD j ("", [])).2 probe < dotQ (db.getD k ("", [])).2 probe)) := by
  refine ⟨rfl, fun hne => ?_⟩
  rcases db with _ | ⟨e, rest⟩
  · exact absurd rfl hne
  · obtain ⟨k, hk, hres, hbound, hstrict⟩ :=
      npArgmax_spec ((e :: rest).map (fun x => dotQ x.2 probe)) (by simp)
    have hk2 : k < (e :: rest).length := by simpa using hk
    refine ⟨k, hk2, ?_, ?_, ?_⟩
    · rw [engineMatch_cons, hres]
      rw [List.get?_eq_get hk2, List.get?_eq_get hk]
      rw [List.get_map]
      rw [List.getD_eq_getElem _ _ hk2]
      simp [List.get_eq_getElem]
    · intro j hj
      have hjs : j < ((e :: rest).map (fun x => dotQ x.2 probe)).length := by simpa using hj
      have hb := hbound j hjs
      rw [List.get_map, List.get_map] at hb
      rw [List.getD_eq_getElem _ _ hj, List.getD_eq_getElem _ _ hk2]
      simpa [List.get_eq_getElem] using hb
    · intro j hj
      have hb := hstrict j hj
      rw [List.get_map, List.get_map] at hb
      have hjlen : j < (e :: rest).length := by omega
      rw [List.getD_eq_getElem _ _ hjlen, List.getD_eq_getElem _ _ hk2]
      simpa [List.get_eq_getElem] using hb

/-- Witness for the amended C5 theorem: on the two-entry index below the
maximum is attained at index 0. -/
theorem engineMatch_max_first_tie_witness :
    ([("b", [(1 : ℚ)]), ("a", [2])] ≠ ([] : List (String × List ℚ)))
    ∧ engineMatch [("b", [(1 : ℚ)]), ("a", [2])] [1] = ("a", 2) := by
  obtain ⟨k, hk, heq, hbound, -⟩ :=
    (engineMatch_max_first_tie [("b", [(1 : ℚ)]), ("a", [2])] [1]).2 (by simp)
  have h1 := hbound 1 (by norm_num)
  have hk3 : k < 2 := by simpa using hk
  interval_cases k
  · exfalso
    norm_num [dotQ] at h1
  · refine ⟨by simp, ?_⟩
    rw [heq]
    norm_num [dotQ]

/-- Counterexample for C5: two entries tied at similarity 1.  With
insertion order [b, a] the returned label is "b"; with insertion order
[a, b] it is "a" — the tie-break follows insertion order (np.argmax keeps
the first maximum), not ascending label order. -/
theorem engineMatch_tie_depends_on_insertion :
    engineMatch [("b", [(1 : ℚ)]), ("a", [1])] [1] = ("b", 1)
    ∧ engineMatch [("a", [(1 : ℚ)]), ("b", [1])] [1] = ("a", 1)
    ∧ dotQ [(1 : ℚ)] [1] = dotQ [(1 : ℚ)] [1]
    ∧ ("b" : String) ≠ "a" := by
  refine ⟨?_, ?_, rfl, by decide⟩ <;>
    norm_num [engineMatch, dotQ, npArgmax, argmaxFrom]

/-! ## Claim C8 — unit-norm invariant of the identity index -/

/-- `register_embedding` keeps the unit-norm invariant: it rejects a zero
vector and installs a normalized one otherwise. -/
theorem registerEmbedding_preserves_unit {d : ℕ} (db : EngineDb d) (label : String)
    (emb : EmbVec d)
    (h0 : ∀ l w, db l = some w → ‖w‖ = 1) :
    ∀ l w, (registerEmbedding db label emb).1 l = some w → ‖w‖ = 1 := by
  intro l w hw
  unfold registerEmbedding at hw
  split_ifs at hw with hz
  · exact h0 l w hw
  · simp only at hw
    by_cases hl : l = label
    · rw [if_pos hl] at hw
      obtain rfl := Option.some.inj hw
      exact norm_smul_inv_norm (fun hzero => hz (by rw [hzero, norm_zero]))
    · rw [if_neg hl] at hw
      exact h0 l w hw

/-- `register_from_image` keeps the unit-norm invariant provided the model
feature of the detected face is non-zero (the code itself does not check,
so this side condition is needed — see the counterexample for the refresh
path). -/
theorem registerFromImage_preserves_unit {d : ℕ} (db : EngineDb d) (label : String)
    (detected : Option (EmbVec d))
    (h0 : ∀ l w, db l = some w → ‖w‖ = 1)
    (hnz : ∀ v, detected = some v → v ≠ 0) :
    ∀ l w, (registerFromImage db label detected).1 l = some w → ‖w‖ = 1 := by
  intro l w hw
  unfold registerFromImage at hw
  rcases hdet : detected with _ | f
  · rw [hdet] at hw
    exact h0 l w hw
  · rw [hdet] at hw
    simp only at hw
    by_cases hl : l = label
    · rw [if_pos hl] at hw
      obtain rfl := Option.some.inj hw
      have hf : f ≠ 0 := hnz f hdet
      unfold alignAndEmbedNorm
      rw [if_pos (norm_pos_iff.mpr hf)]
      exact norm_smul_inv_norm hf
    · rw [if_neg hl] at hw
      exact h0 l w hw

/-- One refresh step keeps the unit-norm invariant when the entry's
embedding is non-zero. -/
theorem refreshStep_preserves_unit {d : ℕ} (db : EngineDb d) (e : RegEntry d)
    (h0 : ∀ l w, db l = some w → ‖w‖ = 1)
    (hnz : ∀ v, e.embedding = some v → v ≠ 0) :
    ∀ l w, refreshStep db e l = some w → ‖w‖ = 1 := by
  intro l w hw
  unfold refreshStep at hw
  split_ifs at hw with hlab
  · exact h0 l w hw
  · rcases hemb : e.embedding with _ | emb
    · rw [hemb] at hw
      exact h0 l w hw
    · rw [hemb] at hw
      simp only at hw
      by_cases hl : l = pyStrip e.label
      · rw [if_pos hl] at hw
        obtain rfl := Option.some.inj hw
        have he : emb ≠ 0 := hnz emb hemb
        rw [if_pos (norm_pos_iff.mpr he)]
        exact norm_smul_inv_norm he
      · rw [if_neg hl] at hw
        exact h0 l w hw

/-- The refresh fold keeps the unit-norm invariant when every entry's
embedding is non-zero. -/
theorem refreshFold_unit {d : ℕ} :
    ∀ (entries : List (RegEntry d)) (acc : EngineDb d),
    (∀ l w, acc l = some w → ‖w‖ = 1) →
    (∀ e ∈ entries, ∀ v, e.embedding = some v → v ≠ 0) →
    ∀ l w, (entries.foldl refreshStep acc) l = some w → ‖w‖ = 1 := by
  intro entries
  induction entries with
  | nil => intro acc h0 _ l w hw; exact h0 l w hw
  | cons e es ih =>
    intro acc h0 hnz l w hw
    simp only [List.foldl_cons] at hw
    exact ih (refreshStep acc e)
      (refreshStep_preserves_unit acc e h0 (hnz e (by simp)))
      (fun e2 he2 => hnz e2 (by simp [he2])) l w hw

/-- C8 (amended): after any sequence of install operations starting from an
index of unit vectors, every stored vector has Euclidean norm exactly 1
(hence within 1e-4), PROVIDED every vector the operations feed in is
non-zero: `register_embedding` rejects a zero vector itself, but
`register_from_image` and `refresh_from_register` install a zero vector
unchanged, so the non-zero side condition on their inputs is needed. -/
theorem installOps_unit_norm {d : ℕ} (db0 : EngineDb d) (ops : List (InstallOp d))
    (h0 : ∀ l w, db0 l = some w → ‖w‖ = 1)
    (hops : ∀ op ∈ ops, opSourcesNonzero op) :
    ∀ l w, applyOps db0 ops l = some w → ‖w‖ = 1 ∧ |‖w‖ - 1| ≤ 1/10000 := by
  suffices hmain : ∀ l w, applyOps db0 ops l = some w → ‖w‖ = 1 by
    intro l w hw
    refine ⟨hmain l w hw, ?_⟩
    rw [hmain l w hw]
    norm_num
  induction ops generalizing db0 with
  | nil => intro l w hw; exact h0 l w hw
  | cons op ops ih =>
    intro l w hw
    simp only [applyOps, List.foldl_cons] at hw
    have h1 : ∀ l w, applyOp db0 op l = some w → ‖w‖ = 1 := by
      match op, hops op (by simp) with
      | .regEmb lab e, _ =>
        exact registerEmbedding_preserves_unit db0 lab e h0
      | .regImg lab f, hop =>
        exact registerFromImage_preserves_unit db0 lab f h0 hop
      | .refresh es, hop =>
        intro l w hw2
        exact refreshFold_unit es (fun _ => none) (by intro l2 w2 h2; simp at h2) hop l w hw2
    exact ih (applyOp db0 op) h1 (fun op2 hop2 => hops op2 (by simp [hop2])) l w hw

/-- Witness for the amended C8 theorem: registering the unit basis vector
of ℝ¹ stores a vector of norm 1. -/
theorem installOps_unit_norm_witness :
    (∀ l w, ((fun _ => none) : EngineDb 1) l = some w → ‖w‖ = 1)
    ∧ (∀ op ∈ [InstallOp.regEmb "a" (EuclideanSpace.single (0 : Fin 1) (1 : ℝ))],
        opSourcesNonzero op)
    ∧ ∃ w, applyOps (fun _ => none)
        [InstallOp.regEmb "a" (EuclideanSpace.single (0 : Fin 1) (1 : ℝ))] "a" = some w
      ∧ ‖w‖ = 1 := by
  have h0 : ∀ l w, ((fun _ => none) : EngineDb 1) l = some w → ‖w‖ = 1 := by
    intro l w hw
    simp at hw
  have hops : ∀ op ∈ [InstallOp.regEmb "a" (EuclideanSpace.single (0 : Fin 1) (1 : ℝ))],
      opSourcesNonzero op := by
    intro op hop
    simp only [List.mem_singleton] at hop
    subst hop
    trivial
  have hnz : ‖EuclideanSpace.single (0 : Fin 1) (1 : ℝ)‖ ≠ 0 := by
    rw [EuclideanSpace.norm_single]
    norm_num
  have happ : applyOps (fun _ => none)
      [InstallOp.regEmb "a" (EuclideanSpace.single (0 : Fin 1) (1 : ℝ))] "a"
      = some (‖EuclideanSpace.single (0 : Fin 1) (1 : ℝ)‖⁻¹ •
          EuclideanSpace.single (0 : Fin 1) (1 : ℝ)) := by
    simp only [applyOps, List.foldl_cons, List.foldl_nil, applyOp, registerEmbedding,
      if_neg hnz, if_pos]
  refine ⟨h0, hops, _, happ, ?_⟩
  exact (installOps_unit_norm (fun _ => none)
    [InstallOp.regEmb "a" (EuclideanSpace.single (0 : Fin 1) (1 : ℝ))] h0 hops "a" _ happ).1

/-- Counterexample for C8: `refresh_from_register` installs an all-zero
stored embedding unchanged, so the index then holds a vector of norm 0,
violating the claimed unit-norm invariant. -/
theorem refreshFromRegister_installs_zero :
    refreshFromRegister [({ label := "z", embedding := some 0 } : RegEntry 1)] "z"
      = some (0 : EmbVec 1)
    ∧ ‖(0 : EmbVec 1)‖ = 0
    ∧ ¬ (|‖(0 : EmbVec 1)‖ - 1| ≤ 1/10000) := by
  refine ⟨?_, norm_zero, by rw [norm_zero]; norm_num⟩
  have hstrip : pyStrip "z" = "z" := by decide
  simp only [refreshFromRegister, List.foldl_cons, List.foldl_nil, refreshStep, hstrip]
  norm_num
  simp

/-! ## Claim C3 — which candidates the frame handler submits for recording -/

/-- The marking loop submits exactly the candidates allowed by the
frame-level decision, by being new, or by `_cooldown_ready`. -/
theorem markPhase_submitted (ctx : FrameCtx) (attLast0 : String → Option ℚ) (fetched : AttDb)
    (doMark : Bool) (newLabels : Finset String) (now : ℚ) :
    ∀ (cands : List (String × ℚ)) (cache : Option AttDb) (l : String),
    l ∈ (markPhase ctx attLast0 fetched doMark newLabels now cands cache).1 ↔
      (∃ sc, (l, sc) ∈ cands)
        ∧ (doMark = true ∨ l ∈ newLabels
            ∨ cooldownReady attLast0 now ctx.cooldownSec l = true) := by
  intro cands
  induction cands with
  | nil =>
    intro cache l
    simp [markPhase]
  | cons c rest ih =>
    intro cache l
    rw [markPhase.eq_def]
    simp only []
    by_cases hallow : (doMark = true ∨ c.1 ∈ newLabels
        ∨ cooldownReady attLast0 now ctx.cooldownSec c.1 = true)
    · rw [if_pos hallow]
      simp only [List.mem_cons]
      constructor
      · rintro (rfl | hmem)
        · exact ⟨⟨c.2, by simp⟩, hallow⟩
        · obtain ⟨⟨sc, hsc⟩, hcond⟩ := (ih _ l).mp hmem
          exact ⟨⟨sc, by simp [hsc]⟩, hcond⟩
      · rintro ⟨⟨sc, hsc⟩, hcond⟩
        rcases hsc with heq | hmem
        · left
          exact congrArg Prod.fst heq
        · right
          exact (ih _ l).mpr ⟨⟨sc, hmem⟩, hcond⟩
    · rw [if_neg hallow]
      rw [ih cache l]
      constructor
      · rintro ⟨⟨sc, hsc⟩, hcond⟩
        exact ⟨⟨sc, by simp [hsc]⟩, hcond⟩
      · rintro ⟨⟨sc, hsc⟩, hcond⟩
        rcases List.mem_cons.mp hsc with heq | hmem
        · exfalso
          have hl : l = c.1 := congrArg Prod.fst heq
          rw [hl] at hcond
          exact hallow hcond
        · exact ⟨⟨sc, hmem⟩, hcond⟩

/-- Characterization of a processed frame's recorder submissions, shared by
the C3 theorem and its counterexample. -/
theorem attFrameSubmitted_aux
    (ctx : FrameCtx) (st : SessState) (rec : List (String × ℚ)) (cache : Option AttDb)
    (fetched : AttDb) (now : ℚ) (blocked : List BlockedRec) (cands : List (String × ℚ))
    (l : String)
    (hmark : st.mark = true)
    (hrate : ¬(now - st.lastProc < ctx.minInterval))
    (hg : gatherBlocked ctx (loadAttendanceDb cache fetched).1 st.th now
        (decide (now ≥ st.msgDelayUntil)) rec ∅ = .ok (blocked, cands)) :
    l ∈ (attFrame ctx st false true rec cache fetched now).submitted ↔
      (∃ sc, (l, sc) ∈ cands)
        ∧ ((st.hold = 0 ∧ jaccardQ (labelsSet rec st.th) st.prev < 7/10)
          ∨ l ∈ labelsSet rec st.th \ st.prev
          ∨ cooldownReady ((loadAttendanceDb cache fetched).1).last now ctx.cooldownSec l
              = true) := by
  have hcond : ¬(now - st.lastProc < ctx.minInterval ∨ false = true) := by
    rintro (h | h)
    · exact hrate h
    · simp at h
  simp only [attFrame, if_neg hcond]
  rw [hg]
  simp only [hmark, not_true, if_false, ite_true, if_true]
  rw [markPhase_submitted]
  constructor
  · rintro ⟨hsc, hcond2⟩
    refine ⟨hsc, ?_⟩
    rcases hcond2 with hdo | hnew | hready
    · left
      by_cases hhold : st.hold > 0
      · rw [if_pos hhold] at hdo
        simp at hdo
      · rw [if_neg hhold] at hdo
        simp only [Bool.and_eq_true, decide_eq_true_eq] at hdo
        exact ⟨by omega, hdo.1⟩
    · right; left; exact hnew
    · right; right; exact hready
  · rintro ⟨hsc, hcond2⟩
    refine ⟨hsc, ?_⟩
    rcases hcond2 with ⟨hh0, hjac⟩ | hnew | hready
    · left
      rw [if_neg (by omega)]
      simp [hjac]
    · right; left; exact hnew
    · right; right; exact hready

/-- C3 (amended): on a processed frame of a session with marking enabled, a
recognized non-Unknown candidate label (score ≥ threshold, not blocked by
the admission gate) is submitted for recording exactly when the stabilizer
allowed marking this frame (hold_frames was 0 and jaccard(cur, prev) <
0.7), OR the label is new relative to the previous frame, OR the handler's
`_cooldown_ready` holds for the label — the latter reads the LABEL-keyed
last-mark and treats the cooldown as ready already 1 ms early
(`now - last ≥ max(0, cooldown_sec - 0.001)`), besides the absent-last and
clock-skew cases. -/
theorem attFrame_submission_iff
    (ctx : FrameCtx) (st : SessState) (rec : List (String × ℚ)) (cache : Option AttDb)
    (fetched : AttDb) (now : ℚ) (blocked : List BlockedRec) (cands : List (String × ℚ))
    (l : String)
    (hmark : st.mark = true)
    (hrate : ¬(now - st.lastProc < ctx.minInterval))
    (hg : gatherBlocked ctx (loadAttendanceDb cache fetched).1 st.th now
        (decide (now ≥ st.msgDelayUntil)) rec ∅ = .ok (blocked, cands)) :
    l ∈ (attFrame ctx st false true rec cache fetched now).submitted ↔
      (∃ sc, (l, sc) ∈ cands)
        ∧ ((st.hold = 0 ∧ jaccardQ (labelsSet rec st.th) st.prev < 7/10)
          ∨ l ∈ labelsSet rec st.th \ st.prev
          ∨ cooldownReady ((loadAttendanceDb cache fetched).1).last now ctx.cooldownSec l
              = true) :=
  attFrameSubmitted_aux ctx st rec cache fetched now blocked cands l hmark hrate hg

/-- Frame context for the C3 scenario: label "A" resolves to person "p1",
cooldown 60 s. -/
def ctxC3 : FrameCtx :=
  { resolve := fun l => if l = "A" then some "p1" else none
    parse := fun _ => none
    fmtIso := fun _ => "t"
    fmtFull := fun _ => "f"
    nowIso := "now"
    cooldownSec := 60
    minInterval := 3/20 }

/-- Session state for the C3 counterexample: marking on, one hold frame
pending, "A" seen on the previous frame. -/
def stC3 : SessState :=
  { th := 4/5, mark := true, hold := 1, prev := {"A"}, lastProc := 0, msgDelayUntil := 0 }

/-- Snapshot for the C3 counterexample: label-keyed last mark of "A" at
940.0005, person-keyed map empty (as after enrolling the person later than
the event). -/
def dbC3 : AttDb :=
  { events := []
    last := fun l => if l = "A" then some (1880001/2000) else none
    lastId := fun _ => none
    count := fun _ => none
    countId := fun _ => none
    seq := 0 }

/-- Counterexample for C3: at now = 1000 the label-keyed elapsed time is
59.9995 s < 60 s, the stabilizer holds the frame (hold_frames = 1) and "A"
is not new, yet the handler submits "A" to the recorder — its
`_cooldown_ready` treats `now - last ≥ cooldown_sec - 0.001` as ready, so
the claimed "cooldown has already elapsed" condition is not necessary for
submission. -/
theorem attFrame_submits_despite_cooldown_not_elapsed :
    "A" ∈ (attFrame ctxC3 stC3 false true [("A", 9/10)] (some dbC3) dbC3 1000).submitted
    ∧ stC3.hold = 1
    ∧ "A" ∈ stC3.prev
    ∧ ¬((dbC3.last "A").getD 0 = 0
        ∨ (60 : ℚ) ≤ 1000 - (dbC3.last "A").getD 0
        ∨ (dbC3.last "A").getD 0 > 1000)
    ∧ ctxC3.cooldownSec = 60 := by
  have hg : gatherBlocked ctxC3 (loadAttendanceDb (some dbC3) dbC3).1 stC3.th 1000
      (decide ((1000 : ℚ) ≥ stC3.msgDelayUntil)) [("A", 9/10)] ∅
      = .ok ([], [("A", 9/10)]) := by
    norm_num [gatherBlocked, checkMarkBlockMain, loadAttendanceDb, ctxC3, stC3, dbC3]
    decide
  have hready : cooldownReady ((loadAttendanceDb (some dbC3) dbC3).1).last 1000
      ctxC3.cooldownSec "A" = true := by
    norm_num [cooldownReady, loadAttendanceDb, ctxC3, dbC3]
  refine ⟨?_, rfl, by simp [stC3], by norm_num [dbC3], rfl⟩
  refine (attFrameSubmitted_aux ctxC3 stC3 [("A", 9/10)] (some dbC3) dbC3 1000 []
    [("A", 9/10)] "A" rfl (by norm_num [ctxC3, stC3]) hg).mpr ?_
  exact ⟨⟨9/10, by simp⟩, Or.inr (Or.inr hready)⟩

/-- Session state for the C3 witness: marking on, no hold, empty previous
frame. -/
def stC3w : SessState :=
  { th := 4/5, mark := true, hold := 0, prev := ∅, lastProc := 0, msgDelayUntil := 0 }

/-- Empty snapshot for the C3 witness. -/
def dbC3e : AttDb :=
  { events := []
    last := fun _ => none
    lastId := fun _ => none
    count := fun _ => none
    countId := fun _ => none
    seq := 0 }

/-- Witness for the C3 theorem: with no hold and an empty previous frame
the stabilizer allows the frame and the fresh candidate "A" is
submitted. -/
theorem attFrame_submission_iff_witness :
    stC3w.mark = true
    ∧ ¬((1000 : ℚ) - stC3w.lastProc < ctxC3.minInterval)
    ∧ gatherBlocked ctxC3 (loadAttendanceDb (some dbC3e) dbC3e).1 stC3w.th 1000
        (decide ((1000 : ℚ) ≥ stC3w.msgDelayUntil)) [("A", 9/10)] ∅
        = .ok ([], [("A", 9/10)])
    ∧ "A" ∈ (attFrame ctxC3 stC3w false true [("A", 9/10)] (some dbC3e) dbC3e 1000).submitted := by
  have hrate : ¬((1000 : ℚ) - stC3w.lastProc < ctxC3.minInterval) := by
    norm_num [ctxC3, stC3w]
  have hg : gatherBlocked ctxC3 (loadAttendanceDb (some dbC3e) dbC3e).1 stC3w.th 1000
      (decide ((1000 : ℚ) ≥ stC3w.msgDelayUntil)) [("A", 9/10)] ∅
      = .ok ([], [("A", 9/10)]) := by
    norm_num [gatherBlocked, checkMarkBlockMain, loadAttendanceDb, ctxC3, stC3w, dbC3e]
    decide
  refine ⟨rfl, hrate, hg, ?_⟩
  refine (attFrame_submission_iff ctxC3 stC3w [("A", 9/10)] (some dbC3e) dbC3e 1000 []
    [("A", 9/10)] "A" rfl hrate hg).mpr ?_
  refine ⟨⟨9/10, by simp⟩, Or.inl ⟨rfl, ?_⟩⟩
  norm_num [labelsSet, jaccardQ, stC3w]
  rw [if_neg (by decide : ¬("A" : String) = "Unknown")]
  norm_num

/-! ## Claim C10 — cooldown denial inside the login-message delay window -/

/-- Frame context for the C10 scenario (default cooldown 4860 s). -/
def ctxC10 : FrameCtx :=
  { resolve := fun _ => none
    parse := fun _ => none
    fmtIso := fun _ => "t"
    fmtFull := fun _ => "f"
    nowIso := "now"
    cooldownSec := 4860
    minInterval := 3/20 }

/-- Session state right after connect: `_msg_delay_until` is connect time
plus the 2 s login-message delay (connect at 0 here). -/
def stC10 : SessState :=
  { th := 3/5, mark := true, hold := 0, prev := ∅, lastProc := 0, msgDelayUntil := 2 }

/-- Snapshot for C10: label "B" was last marked at epoch 0.5, so a frame at
epoch 1 is denied with code "cooldown". -/
def dbC10 : AttDb :=
  { events := []
    last := fun l => if l = "B" then some (1/2) else none
    lastId := fun _ => none
    count := fun _ => none
    countId := fun _ => none
    seq := 0 }

/-- C10: a frame processed at epoch 1 — still inside the login-message
delay window (until epoch 2), so `allow_msgs` is false — containing a
recognized label denied with code "cooldown" makes
`_create_blocked_info` read the never-assigned local `until_txt`
(`UnboundLocalError`); the handler's `except` clause then emits `att_error`
instead of the `att_result` payload. -/
theorem attFrame_msg_delay_unbound_until_txt :
    ((1 : ℚ) < stC10.msgDelayUntil)
    ∧ (checkMarkBlockMain dbC10 ctxC10.resolve "B" 1 4860 ctxC10.fmtIso).1 = false
    ∧ (checkMarkBlockMain dbC10 ctxC10.resolve "B" 1 4860 ctxC10.fmtIso).2.1 = "cooldown"
    ∧ (attFrame ctxC10 stC10 false true [("B", 9/10)] (some dbC10) dbC10 1).out
      = .attError "cannot access local variable until_txt where it is not associated with a value" := by
  refine ⟨by norm_num [stC10], ?_, ?_, ?_⟩ <;>
    norm_num [attFrame, gatherBlocked, checkMarkBlockMain, createBlockedInfo, loadAttendanceDb,
      labelsSet, jaccardQ, ctxC10, stC10, dbC10]
  rw [if_neg (by decide : ¬("B" : String) = "Unknown")]

def labelTsList (parse : String → Option ℚ) (L : String) (events : List AttEvent) : List ℚ :=
  events.filterMap (fun e => if e.label = L then parse e.ts else none)

def pidTsList (resolve : String → Option String) (parse : String → Option ℚ) (P : String)
    (events : List AttEvent) : List ℚ :=
  events.filterMap
    (fun e => if e.label ≠ "" ∧ effPid resolve e = P then parse e.ts else none)

theorem rebuildStep_parse_none (resolve : String → Option String) (parse : String → Option ℚ)
    (acc : DerivedMaps) (e : AttEvent) (h : parse e.ts = none) :
    rebuildStep resolve parse acc e = acc := by
  unfold rebuildStep
  rw [h]

theorem rebuildStep_label_empty (resolve : String → Option String) (parse : String → Option ℚ)
    (acc : DerivedMaps) (e : AttEvent) (t : ℚ) (h : parse e.ts = some t)
    (hl : e.label = "") :
    rebuildStep resolve parse acc e = acc := by
  unfold rebuildStep
  rw [h]
  simp [hl]

theorem rebuildStep_eq (resolve : String → Option String) (parse : String → Option ℚ)
    (acc : DerivedMaps) (e : AttEvent) (t : ℚ) (h : parse e.ts = some t)
    (hl : ¬ e.label = "") :
    rebuildStep resolve parse acc e =
      { last := updQ acc.last e.label (max ((acc.last e.label).getD 0) t)
        count := updZ acc.count e.label ((acc.count e.label).getD 0 + 1)
        lastId := if effPid resolve e ≠ "" then
            updQ acc.lastId (effPid resolve e) (max ((acc.lastId (effPid resolve e)).getD 0) t)
          else acc.lastId
        countId := if effPid resolve e ≠ "" then
            updZ acc.countId (effPid resolve e) ((acc.countId (effPid resolve e)).getD 0 + 1)
          else acc.countId } := by
  unfold rebuildStep
  rw [h]
  simp [hl]

theorem rebuild_label_fold (resolve : String → Option String) (parse : String → Option ℚ)
    (L : String) (hL : L ≠ "") :
    ∀ (events : List AttEvent) (acc : DerivedMaps),
    ((events.foldl (rebuildStep resolve parse) acc).last L
      = if labelTsList parse L events = [] then acc.last L
        else some ((labelTsList parse L events).foldl max ((acc.last L).getD 0)))
    ∧ ((events.foldl (rebuildStep resolve parse) acc).count L
      = if labelTsList parse L events = [] then acc.count L
        else some ((acc.count L).getD 0 + (labelTsList parse L events).length)) := by
  intro events
  induction events with
  | nil =>
    intro acc
    simp [labelTsList]
  | cons e es ih =>
    intro acc
    rcases hpe : parse e.ts with _ | t
    · have hlist : labelTsList parse L (e :: es) = labelTsList parse L es := by
        simp [labelTsList, List.filterMap_cons, hpe, ite_self]
      rw [List.foldl_cons, rebuildStep_parse_none resolve parse acc e hpe, hlist]
      exact ih acc
    · by_cases hlab : e.label = ""
      · have hne : e.label ≠ L := by rw [hlab]; exact fun hcontra => hL hcontra.symm
        have hlist : labelTsList parse L (e :: es) = labelTsList parse L es := by
          simp [labelTsList, List.filterMap_cons, hne]
        rw [List.foldl_cons, rebuildStep_label_empty resolve parse acc e t hpe hlab, hlist]
        exact ih acc
      · rw [List.foldl_cons, rebuildStep_eq resolve parse acc e t hpe hlab]
        obtain ⟨ihl, ihc⟩ := ih
          { last := updQ acc.last e.label (max ((acc.last e.label).getD 0) t)
            count := updZ acc.count e.label ((acc.count e.label).getD 0 + 1)
            lastId := if effPid resolve e ≠ "" then
                updQ acc.lastId (effPid resolve e)
                  (max ((acc.lastId (effPid resolve e)).getD 0) t)
              else acc.lastId
            countId := if effPid resolve e ≠ "" then
                updZ acc.countId (effPid resolve e)
                  ((acc.countId (effPid resolve e)).getD 0 + 1)
              else acc.countId }
        by_cases heL : e.label = L
        · have hlist : labelTsList parse L (e :: es) = t :: labelTsList parse L es := by
            simp [labelTsList, List.filterMap_cons, heL, hpe]
          have haccl : (updQ acc.last e.label (max ((acc.last e.label).getD 0) t)) L
              = some (max ((acc.last L).getD 0) t) := by
            rw [heL]
            simp [updQ]
          have haccc : (updZ acc.count e.label ((acc.count e.label).getD 0 + 1)) L
              = some ((acc.count L).getD 0 + 1) := by
            rw [heL]
            simp [updZ]
          refine ⟨?_, ?_⟩
          · rw [ihl, hlist]
            dsimp only
            rw [haccl]
            by_cases hrest : labelTsList parse L es = []
            · rw [if_pos hrest, hrest, if_neg (List.cons_ne_nil t [])]
              simp
            · rw [if_neg hrest, if_neg (List.cons_ne_nil t (labelTsList parse L es))]
              simp
          · rw [ihc, hlist]
            dsimp only
            rw [haccc]
            by_cases hrest : labelTsList parse L es = []
            · rw [if_pos hrest, hrest, if_neg (List.cons_ne_nil t [])]
              simp
            · rw [if_neg hrest, if_neg (List.cons_ne_nil t (labelTsList parse L es))]
              simp only [List.length_cons, Option.getD_some]
              congr 1
              push_cast
              ring
        · have hlist : labelTsList parse L (e :: es) = labelTsList parse L es := by
            simp [labelTsList, List.filterMap_cons, heL]
          have hneL : L ≠ e.label := fun hcontra => heL hcontra.symm
          have haccl : (updQ acc.last e.label (max ((acc.last e.label).getD 0) t)) L
              = acc.last L := by
            simp [updQ, hneL]
          have haccc : (updZ acc.count e.label ((acc.count e.label).getD 0 + 1)) L
              = acc.count L := by
            simp [updZ, hneL]
          refine ⟨?_, ?_⟩
          · rw [ihl, hlist]
            dsimp only
            rw [haccl]
          · rw [ihc, hlist]
            dsimp only
            rw [haccc]

theorem rebuild_pid_fold (resolve : String → Option String) (parse : String → Option ℚ)
    (P : String) (hP : P ≠ "") :
    ∀ (events : List AttEvent) (acc : DerivedMaps),
    ((events.foldl (rebuildStep resolve parse) acc).lastId P
      = if pidTsList resolve parse P events = [] then acc.lastId P
        else some ((pidTsList resolve parse P events).foldl max ((acc.lastId P).getD 0)))
    ∧ ((events.foldl (rebuildStep resolve parse) acc).countId P
      = if pidTsList resolve parse P events = [] then acc.countId P
        else some ((acc.countId P).getD 0 + (pidTsList resolve parse P events).length)) := by
  intro events
  induction events with
  | nil =>
    intro acc
    simp [pidTsList]
  | cons e es ih =>
    intro acc
    rcases hpe : parse e.ts with _ | t
    · have hlist : pidTsList resolve parse P (e :: es) = pidTsList resolve parse P es := by
        simp [pidTsList, List.filterMap_cons, hpe, ite_self]
      rw [List.foldl_cons, rebuildStep_parse_none resolve parse acc e hpe, hlist]
      exact ih acc
    · by_cases hlab : e.label = ""
      · have hlist : pidTsList resolve parse P (e :: es) = pidTsList resolve parse P es := by
          simp [pidTsList, List.filterMap_cons, hlab]
        rw [List.foldl_cons, rebuildStep_label_empty resolve parse acc e t hpe hlab, hlist]
        exact ih acc
      · rw [List.foldl_cons, rebuildStep_eq resolve parse acc e t hpe hlab]
        obtain ⟨ihl, ihc⟩ := ih
          { last := updQ acc.last e.label (max ((acc.last e.label).getD 0) t)
            count := updZ acc.count e.label ((acc.count e.label).getD 0 + 1)
            lastId := if effPid resolve e ≠ "" then
                updQ acc.lastId (effPid resolve e)
                  (max ((acc.lastId (effPid resolve e)).getD 0) t)
              else acc.lastId
            countId := if effPid resolve e ≠ "" then
                updZ acc.countId (effPid resolve e)
                  ((acc.countId (effPid resolve e)).getD 0 + 1)
              else acc.countId }
        by_cases heP : effPid resolve e = P
        · have hpidne : effPid resolve e ≠ "" := by rw [heP]; exact hP
          have hlist : pidTsList resolve parse P (e :: es) = t :: pidTsList resolve parse P es := by
            simp [pidTsList, List.filterMap_cons, heP, hlab, hpe]
          have haccl : (if effPid resolve e ≠ "" then
                updQ acc.lastId (effPid resolve e)
                  (max ((acc.lastId (effPid resolve e)).getD 0) t)
              else acc.lastId) P
              = some (max ((acc.lastId P).getD 0) t) := by
            rw [if_pos hpidne, heP]
            simp [updQ]
          have haccc : (if effPid resolve e ≠ "" then
                updZ acc.countId (effPid resolve e)
                  ((acc.countId (effPid resolve e)).getD 0 + 1)
              else acc.countId) P
              = some ((acc.countId P).getD 0 + 1) := by
            rw [if_pos hpidne, heP]
            simp [updZ]
          refine ⟨?_, ?_⟩
          · rw [ihl, hlist]
            dsimp only
            rw [haccl]
            by_cases hrest : pidTsList resolve parse P es = []
            · rw [if_pos hrest, hrest, if_neg (List.cons_ne_nil t [])]
              simp
            · rw [if_neg hrest, if_neg (List.cons_ne_nil t (pidTsList resolve parse P es))]
              simp
          · rw [ihc, hlist]
            dsimp only
            rw [haccc]
            by_cases hrest : pidTsList resolve parse P es = []
            · rw [if_pos hrest, hrest, if_neg (List.cons_ne_nil t [])]
              simp
            · rw [if_neg hrest, if_neg (List.cons_ne_nil t (pidTsList resolve parse P es))]
              simp only [List.length_cons, Option.getD_some]
              congr 1
              push_cast
              ring
        · have hlist : pidTsList resolve parse P (e :: es) = pidTsList resolve parse P es := by
            simp [pidTsList, List.filterMap_cons, heP]
          have hneP : P ≠ effPid resolve e := fun hcontra => heP hcontra.symm
          have haccl : (if effPid resolve e ≠ "" then
                updQ acc.lastId (effPid resolve e)
                  (max ((acc.lastId (effPid resolve e)).getD 0) t)
              else acc.lastId) P
              = acc.lastId P := by
            by_cases hpidne : effPid resolve e = ""
            · rw [if_neg (by simpa using hpidne)]
            · rw [if_pos hpidne]
              simp [updQ, hneP]
          have haccc : (if effPid resolve e ≠ "" then
                updZ acc.countId (effPid resolve e)
                  ((acc.countId (effPid resolve e)).getD 0 + 1)
              else acc.countId) P
              = acc.countId P := by
            by_cases hpidne : effPid resolve e = ""
            · rw [if_neg (by simpa using hpidne)]
            · rw [if_pos hpidne]
              simp [updZ, hneP]
          refine ⟨?_, ?_⟩
          · rw [ihl, hlist]
            dsimp only
            rw [haccl]
          · rw [ihc, hlist]
            dsimp only
            rw [haccc]

theorem foldl_max_spec (xs : List ℚ) :
    ∀ c : ℚ, (xs.foldl max c = c ∨ xs.foldl max c ∈ xs)
      ∧ c ≤ xs.foldl max c ∧ ∀ y ∈ xs, y ≤ xs.foldl max c := by
  induction xs with
  | nil =>
    intro c
    exact ⟨Or.inl rfl, le_refl c, by intro y hy; cases hy⟩
  | cons x xs ih =>
    intro c
    obtain ⟨h1, h2, h3⟩ := ih (max c x)
    rw [List.foldl_cons]
    refine ⟨?_, ?_, ?_⟩
    · rcases h1 with heq | hmem
      · rcases max_choice c x with hc | hx
        · exact Or.inl (heq.trans hc)
        · exact Or.inr (by rw [heq, hx]; exact List.mem_cons_self x xs)
      · exact Or.inr (List.mem_cons_of_mem x hmem)
    · exact le_trans (le_max_left c x) h2
    · intro y hy
      rcases List.mem_cons.mp hy with hyx | hyxs
      · rw [hyx]
        exact le_trans (le_max_right c x) h2
      · exact h3 y hyxs

theorem labelTsList_nonneg (parse : String → Option ℚ)
    (hpos : ∀ s q, parse s = some q → 0 ≤ q) (L : String) (events : List AttEvent) :
    ∀ y ∈ labelTsList parse L events, 0 ≤ y := by
  intro y hy
  simp only [labelTsList, List.mem_filterMap] at hy
  obtain ⟨e, _, hcond⟩ := hy
  by_cases hel : e.label = L
  · rw [if_pos hel] at hcond
    exact hpos e.ts y hcond
  · rw [if_neg hel] at hcond
    cases hcond

theorem pidTsList_nonneg (resolve : String → Option String) (parse : String → Option ℚ)
    (hpos : ∀ s q, parse s = some q → 0 ≤ q) (P : String) (events : List AttEvent) :
    ∀ y ∈ pidTsList resolve parse P events, 0 ≤ y := by
  intro y hy
  simp only [pidTsList, List.mem_filterMap] at hy
  obtain ⟨e, _, hcond⟩ := hy
  by_cases hel : e.label ≠ "" ∧ effPid resolve e = P
  · rw [if_pos hel] at hcond
    exact hpos e.ts y hcond
  · rw [if_neg hel] at hcond
    cases hcond

/-- The invariant the spec states for the four derived maps of an
attendance snapshot: per label, `last` holds the maximum parsed timestamp
over the events carrying the label and `count` their number (absent keys
when there is no such event), and likewise for `last_id` / `count_id`
keyed by effective person id. -/
def attMapsCorrect (resolve : String → Option String) (parse : String → Option ℚ)
    (db : AttDb) : Prop :=
  (∀ L, L ≠ "" →
    (labelTsList parse L db.events = [] → db.last L = none ∧ db.count L = none) ∧
    (labelTsList parse L db.events ≠ [] →
      (∃ m, db.last L = some m ∧ m ∈ labelTsList parse L db.events ∧
        ∀ y ∈ labelTsList parse L db.events, y ≤ m) ∧
      db.count L = some ((labelTsList parse L db.events).length : ℤ)))
  ∧ (∀ P, P ≠ "" →
    (pidTsList resolve parse P db.events = [] → db.lastId P = none ∧ db.countId P = none) ∧
    (pidTsList resolve parse P db.events ≠ [] →
      (∃ m, db.lastId P = some m ∧ m ∈ pidTsList resolve parse P db.events ∧
        ∀ y ∈ pidTsList resolve parse P db.events, y ≤ m) ∧
      db.countId P = some ((pidTsList resolve parse P db.events).length : ℤ)))

theorem rebuild_maps_correct_core (resolve : String → Option String)
    (parse : String → Option ℚ) (hpos : ∀ s q, parse s = some q → 0 ≤ q)
    (events : List AttEvent) (db : AttDb)
    (hev : db.events = events)
    (hl : db.last = (rebuildMaps resolve parse events).last)
    (hc : db.count = (rebuildMaps resolve parse events).count)
    (hli : db.lastId = (rebuildMaps resolve parse events).lastId)
    (hci : db.countId = (rebuildMaps resolve parse events).countId) :
    attMapsCorrect resolve parse db := by
  constructor
  · intro L hL
    obtain ⟨hlast, hcount⟩ := rebuild_label_fold resolve parse L hL events
      ⟨fun _ => none, fun _ => none, fun _ => none, fun _ => none⟩
    rw [hev, hl, hc]
    simp only [rebuildMaps]
    rw [hlast, hcount]
    dsimp only
    constructor
    · intro hnil
      rw [if_pos hnil, if_pos hnil]
      exact ⟨rfl, rfl⟩
    · intro hne
      rw [if_neg hne, if_neg hne]
      obtain ⟨hmem0, _, hub⟩ := foldl_max_spec (labelTsList parse L events) 0
      refine ⟨⟨(labelTsList parse L events).foldl max 0, by simp, ?_, hub⟩, by simp⟩
      rcases hmem0 with h0 | hmem
      · obtain ⟨x, hx⟩ := List.exists_mem_of_ne_nil _ hne
        have hx0 : x = 0 := le_antisymm (h0 ▸ hub x hx)
          (labelTsList_nonneg parse hpos L events x hx)
        rw [h0, ← hx0]
        exact hx
      · exact hmem
  · intro P hP
    obtain ⟨hlast, hcount⟩ := rebuild_pid_fold resolve parse P hP events
      ⟨fun _ => none, fun _ => none, fun _ => none, fun _ => none⟩
    rw [hev, hli, hci]
    simp only [rebuildMaps]
    rw [hlast, hcount]
    dsimp only
    constructor
    · intro hnil
      rw [if_pos hnil, if_pos hnil]
      exact ⟨rfl, rfl⟩
    · intro hne
      rw [if_neg hne, if_neg hne]
      obtain ⟨hmem0, _, hub⟩ := foldl_max_spec (pidTsList resolve parse P events) 0
      refine ⟨⟨(pidTsList resolve parse P events).foldl max 0, by simp, ?_, hub⟩, by simp⟩
      rcases hmem0 with h0 | hmem
      · obtain ⟨x, hx⟩ := List.exists_mem_of_ne_nil _ hne
        have hx0 : x = 0 := le_antisymm (h0 ▸ hub x hx)
          (pidTsList_nonneg resolve parse hpos P events x hx)
        rw [h0, ← hx0]
        exact hx
      · exact hmem

theorem checkMarkBlockMain_ok_of_absent (db : AttDb) (resolve : String → Option String)
    (L : String) (now : ℚ) (cd : ℤ) (fmtIso : ℚ → String)
    (hres : resolve L = none) (hlast : db.last L = none) :
    (checkMarkBlockMain db resolve L now cd fmtIso).1 = true
    ∧ (checkMarkBlockMain db resolve L now cd fmtIso).2.1 = "ok" := by
  simp [checkMarkBlockMain, hres, hlast]

/-- **C4.**  After an admin edit (`admin_attendance_event_update`) or an
admin delete (`admin_attendance_event_delete`) of an attendance event, the
four derived maps are recomputed from scratch over the remaining event
list: for every label, `last` holds the maximum parsed timestamp among the
remaining events carrying the label and `count` their number, and likewise
`last_id` / `count_id` keyed by effective person id (keys with no
remaining event are absent); deleting the only event of a label leaves the
label absent from `last` and `count`, so a subsequent admission check for
that (unresolvable) label answers ok.  Timestamps parse to non-negative
epoch seconds. -/
theorem adminEventOps_rebuild_from_scratch
    (cache : Option AttDb) (fetched : AttDb) (resolve : String → Option String)
    (parse : String → Option ℚ) (eventId : ℤ) (patch : EventPatch)
    (hpos : ∀ s q, parse s = some q → 0 ≤ q) :
    (∀ db1, adminAttendanceEventUpdate cache fetched resolve parse eventId patch = .ok db1 →
      attMapsCorrect resolve parse db1)
    ∧ (∀ db1, adminAttendanceEventDelete cache fetched resolve parse eventId = .ok db1 →
      attMapsCorrect resolve parse db1
      ∧ ∀ L now cd fmtIso, L ≠ "" → labelTsList parse L db1.events = [] →
          resolve L = none →
          (checkMarkBlockMain db1 resolve L now cd fmtIso).1 = true
          ∧ (checkMarkBlockMain db1 resolve L now cd fmtIso).2.1 = "ok") := by
  constructor
  · intro db1 h
    simp only [adminAttendanceEventUpdate] at h
    rcases hpf : patchFirst resolve parse patch eventId
        (loadAttendanceDb cache fetched).1.events with _ | r
    · rw [hpf] at h
      cases h
    · rw [hpf] at h
      rcases r with e | evs
      · dsimp only at h
        cases h
      · dsimp only at h
        injection h with h
        exact rebuild_maps_correct_core resolve parse hpos evs db1
          (by rw [← h]) (by rw [← h]) (by rw [← h]) (by rw [← h]) (by rw [← h])
  · intro db1 h
    simp only [adminAttendanceEventDelete] at h
    by_cases hlen :
        ((loadAttendanceDb cache fetched).1.events.filter
          (fun ev => ev.id ≠ eventId)).length
        = (loadAttendanceDb cache fetched).1.events.length
    · rw [if_pos hlen] at h
      cases h
    · rw [if_neg hlen] at h
      injection h with h
      have hcorrect := rebuild_maps_correct_core resolve parse hpos
        ((loadAttendanceDb cache fetched).1.events.filter (fun ev => ev.id ≠ eventId)) db1
        (by rw [← h]) (by rw [← h]) (by rw [← h]) (by rw [← h]) (by rw [← h])
      refine ⟨hcorrect, ?_⟩
      intro L now cd fmtIso hL hnil hres
      have hlast : db1.last L = none := ((hcorrect.1 L hL).1 hnil).1
      exact checkMarkBlockMain_ok_of_absent db1 resolve L now cd fmtIso hres hlast

/-- Concrete timestamp parser for the C4 witness: one known ISO string,
mapped to its epoch value. -/
def parseC4 : String → Option ℚ :=
  fun s => if s = "2024-01-01T08:00:00" then some 1704096000 else none

/-- Concrete snapshot for the C4 witness: a single event for label `"A"`. -/
def fetchedC4 : AttDb :=
  { events := [⟨1, "A", 9/10, "2024-01-01T08:00:00", none⟩]
    last := fun l => if l = "A" then some 1704096000 else none
    lastId := fun _ => none
    count := fun l => if l = "A" then some 1 else none
    countId := fun _ => none
    seq := 1 }

/-- Witness for C4: the concrete parser is non-negative, and the theorem
applies to deleting the only event of label `"A"` from the concrete
snapshot. -/
theorem adminEventOps_rebuild_from_scratch_witness :
    (∀ s q, parseC4 s = some q → 0 ≤ q) ∧
    (∀ db1, adminAttendanceEventDelete none fetchedC4 (fun _ => none) parseC4 1 = .ok db1 →
      attMapsCorrect (fun _ => none) parseC4 db1
      ∧ ∀ L now cd fmtIso, L ≠ "" → labelTsList parseC4 L db1.events = [] →
          (fun _ => (none : Option String)) L = none →
          (checkMarkBlockMain db1 (fun _ => none) L now cd fmtIso).1 = true
          ∧ (checkMarkBlockMain db1 (fun _ => none) L now cd fmtIso).2.1 = "ok") := by
  have hpos : ∀ s q, parseC4 s = some q → 0 ≤ q := by
    intro s q hq
    simp only [parseC4] at hq
    by_cases hs : s = "2024-01-01T08:00:00"
    · rw [if_pos hs] at hq
      injection hq with hq
      rw [← hq]
      norm_num
    · rw [if_neg hs] at hq
      cases hq
  exact ⟨hpos, (adminEventOps_rebuild_from_scratch none fetchedC4 (fun _ => none) parseC4 1
    ⟨none, none, none⟩ hpos).2⟩
